import Mathlib

/-!
# Request signing of package `auth` (`auth/authorization.go`)

A shallow embedding of the signer: the credential `Authorization`, the keyed-hash
primitive `Sign`, the payload variant `SignWithData`, the two request canonicalisations
`SignRequest` (V1) and `SignRequestV2` (V2) and the callback check `VerifyCallback`.

Go strings and `[]byte` are both finite byte sequences, so both are `List Byte`; the
conversion `[]byte(s)` is the identity.  A Go result pair `(token, err)` is a Lean pair whose
second component is `none` for `nil`.

The library functions the file calls are embedded next to it: SHA-1 (FIPS 180), the
`crypto/hmac` object, `base64.URLEncoding`, `http.Header.Get` and `seekable.New`.  The
effect of `seekable.New` on the body stream is embedded apart (`RequestStream`), with the
signers threaded through it.
-/

namespace auth

/-- One byte. -/
abbrev Byte := Fin 256

/-- A byte sequence: a Go `[]byte` or a Go `string`. -/
abbrev Bytes := List Byte

/-- The bytes of an ASCII string literal of the source. -/
def str (s : String) : Bytes := s.toList.map (fun c => Fin.ofNat c.toNat)

/-- A Go `error` value that is not `nil`. -/
structure GoError where
  msg : String
deriving DecidableEq, Repr

/-! ## `crypto/sha1` -/

namespace sha1

/-- The size of a SHA-1 checksum in bytes. -/
def Size : Nat := 20

/-- The block size of SHA-1 in bytes. -/
def BlockSize : Nat := 64

def chunk : Nat := 64

def K0 : Nat := 0x5A827999
def K1 : Nat := 0x6ED9EBA1
def K2 : Nat := 0x8F1BBCDC
def K3 : Nat := 0xCA62C1D6

/-- Rotation of a 32-bit word to the left by `k` bits (`bits.RotateLeft32`). -/
def RotateLeft32 (x k : Nat) : Nat := (x <<< k ||| x >>> (32 - k)) % 2 ^ 32

/-- Bitwise complement of a 32-bit word. -/
def not32 (x : Nat) : Nat := x ^^^ 0xFFFFFFFF

/-- Big-endian 32-bit word of four bytes. -/
def beWord (b0 b1 b2 b3 : Byte) : Nat :=
  b0.val <<< 24 ||| b1.val <<< 16 ||| b2.val <<< 8 ||| b3.val

/-- The sixteen message words of a 64-byte block. -/
def loadWords : Bytes → List Nat
  | b0 :: b1 :: b2 :: b3 :: rest => beWord b0 b1 b2 b3 :: loadWords rest
  | _ => []

/-- The message schedule: `n` more words, each the rotated xor of four earlier ones. -/
def schedule : Nat → List Nat → List Nat
  | 0, w => w
  | n + 1, w =>
    let i := w.length
    let tmp := w.getD (i - 3) 0 ^^^ w.getD (i - 8) 0 ^^^ w.getD (i - 14) 0 ^^^ w.getD (i - 16) 0
    schedule n (w ++ [RotateLeft32 tmp 1])

/-- The five chaining words of the digest. -/
structure Regs where
  a : Nat
  b : Nat
  c : Nat
  d : Nat
  e : Nat
deriving DecidableEq, Repr

/-- Round `i` of the compression function on schedule word `wi`. -/
def round (i : Nat) (wi : Nat) (r : Regs) : Regs :=
  let f :=
    if i < 20 then r.b &&& r.c ||| not32 r.b &&& r.d
    else if i < 40 then r.b ^^^ r.c ^^^ r.d
    else if i < 60 then ((r.b ||| r.c) &&& r.d) ||| (r.b &&& r.c)
    else r.b ^^^ r.c ^^^ r.d
  let k := if i < 20 then K0 else if i < 40 then K1 else if i < 60 then K2 else K3
  let t := (RotateLeft32 r.a 5 + f + r.e + wi + k) % 2 ^ 32
  ⟨t, r.a, RotateLeft32 r.b 30, r.c, r.d⟩

/-- The rounds over the schedule words, numbered from `i`. -/
def rounds : Nat → List Nat → Regs → Regs
  | _, [], r => r
  | i, wi :: ws, r => rounds (i + 1) ws (round i wi r)

/-- The compression of one 64-byte block into the chaining words. -/
def block (h : Regs) (p : Bytes) : Regs :=
  let w := schedule 64 (loadWords p)
  let r := rounds 0 w h
  ⟨(h.a + r.a) % 2 ^ 32, (h.b + r.b) % 2 ^ 32, (h.c + r.c) % 2 ^ 32,
   (h.d + r.d) % 2 ^ 32, (h.e + r.e) % 2 ^ 32⟩

/-- The compression of `n` consecutive blocks. -/
def blocks : Nat → Regs → Bytes → Regs
  | 0, h, _ => h
  | n + 1, h, p => blocks n (block h (p.take chunk)) (p.drop chunk)

/-- The `n` low bytes of `v`, most significant first (`binary.BigEndian.PutUint32/64`). -/
def putUint (n : Nat) (v : Nat) : Bytes :=
  (List.range n).reverse.map (fun i => Fin.ofNat (v >>> (8 * i)))

/-- The padding of a message of `len` bytes: a one bit, zeros up to 56 mod 64, and the
length in bits as a 64-bit word. -/
def padding (len : Nat) : Bytes :=
  let t := if len % 64 < 56 then 56 - len % 64 else 64 + 56 - len % 64
  (0x80 : Byte) :: List.replicate (t - 1) 0 ++ putUint 8 ((len <<< 3) % 2 ^ 64)

/-- The SHA-1 checksum of `data` (`sha1.Sum`). -/
def Sum (data : Bytes) : Bytes :=
  let p := data ++ padding data.length
  let h := blocks (p.length / chunk)
    ⟨0x67452301, 0xEFCDAB89, 0x98BADCFE, 0x10325476, 0xC3D2E1F0⟩ p
  putUint 4 h.a ++ putUint 4 h.b ++ putUint 4 h.c ++ putUint 4 h.d ++ putUint 4 h.e

/-- A running SHA-1 `hash.Hash`, represented by the bytes written since the last reset. -/
structure digest where
  written : Bytes
deriving DecidableEq, Repr

/-- The fresh hash of `sha1.New()`. -/
def New : digest := ⟨[]⟩

/-- The call `d.Write(p)`. -/
def digest.Write (d : digest) (p : Bytes) : digest := ⟨d.written ++ p⟩

/-- The call `d.Sum(b)`: the checksum of what was written, appended to `b`. -/
def digest.Sum (d : digest) (b : Bytes) : Bytes := b ++ sha1.Sum d.written

/-- The call `d.Reset()`. -/
def digest.Reset (_d : digest) : digest := ⟨[]⟩

/-- The call `d.BlockSize()`. -/
def digest.BlockSize (_d : digest) : Nat := sha1.BlockSize

end sha1

/-! ## `crypto/hmac` -/

namespace hmac

/-- The builtin `copy(dst, src)`: the first `min (len dst) (len src)` bytes of `dst` are
replaced by those of `src`. -/
def copy (dst src : Bytes) : Bytes := src.take dst.length ++ dst.drop src.length

/-- The `hmac` object over SHA-1. -/
structure HMAC where
  opad : Bytes
  ipad : Bytes
  outer : sha1.digest
  inner : sha1.digest
deriving DecidableEq, Repr

/-- The constructor `hmac.New(sha1.New, key)`. -/
def New (key : Bytes) : HMAC :=
  let outer := sha1.New
  let inner := sha1.New
  let blocksize := inner.BlockSize
  let ipad := List.replicate blocksize (0 : Byte)
  let opad := List.replicate blocksize (0 : Byte)
  let outerKey : sha1.digest × Bytes :=
    if key.length > blocksize then
      let outer1 := outer.Write key
      (outer1, outer1.Sum [])
    else (outer, key)
  let ipad := copy ipad outerKey.2
  let opad := copy opad outerKey.2
  let ipad := ipad.map (fun x => x ^^^ 0x36)
  let opad := opad.map (fun x => x ^^^ 0x5c)
  let inner := inner.Write ipad
  ⟨opad, ipad, outerKey.1, inner⟩

/-- The call `h.Write(p)`: the bytes go to the inner hash. -/
def HMAC.Write (h : HMAC) (p : Bytes) : HMAC := { h with inner := h.inner.Write p }

/-- The call `h.Sum(in)`: the outer hash of `opad` and the inner checksum, appended to `in`. -/
def HMAC.Sum (h : HMAC) (inp : Bytes) : Bytes :=
  let origLen := inp.length
  let inp1 := h.inner.Sum inp
  let outer := h.outer.Reset
  let outer := outer.Write h.opad
  let outer := outer.Write (inp1.drop origLen)
  outer.Sum (inp1.take origLen)

end hmac

/-- The key block `K0` of RFC 2104: the key, hashed first when longer than a block, padded
with zeros to a block of 64 bytes. -/
def keyBlock (key : Bytes) : Bytes :=
  let k := if key.length > 64 then sha1.Sum key else key
  k ++ List.replicate (64 - k.length) (0 : Byte)

/-- HMAC-SHA1 as RFC 2104 defines it: `H((K0 xor opad) ++ H((K0 xor ipad) ++ text))`. -/
def HMAC_SHA1 (key text : Bytes) : Bytes :=
  sha1.Sum ((keyBlock key).map (fun x => x ^^^ 0x5c) ++
    sha1.Sum ((keyBlock key).map (fun x => x ^^^ 0x36) ++ text))

/-! ## `encoding/base64` -/

namespace base64

/-- The URL-safe alphabet of `base64.URLEncoding`. -/
def encodeURL : Bytes :=
  str "ABCDEFGHIJKLMNOPQRSTUVWXYZabcdefghijklmnopqrstuvwxyz0123456789-_"

/-- The padding character `=` (`base64.StdPadding`). -/
def StdPadding : Byte := 61

/-- The character of a 6-bit value: `enc.encode[v]`. -/
def encode (v : Nat) : Byte := encodeURL.getD v 0

/-- The call `base64.URLEncoding.EncodeToString(src)`: full 3-byte groups give four
characters each, a rest of one or two bytes gives two or three characters and padding. -/
def EncodeToString : Bytes → Bytes
  | s0 :: s1 :: s2 :: rest =>
    let val := s0.val <<< 16 ||| s1.val <<< 8 ||| s2.val
    encode (val >>> 18 &&& 0x3F) :: encode (val >>> 12 &&& 0x3F) ::
      encode (val >>> 6 &&& 0x3F) :: encode (val &&& 0x3F) :: EncodeToString rest
  | [s0, s1] =>
    let val := s0.val <<< 16 ||| s1.val <<< 8
    [encode (val >>> 18 &&& 0x3F), encode (val >>> 12 &&& 0x3F),
      encode (val >>> 6 &&& 0x3F), StdPadding]
  | [s0] =>
    let val := s0.val <<< 16
    [encode (val >>> 18 &&& 0x3F), encode (val >>> 12 &&& 0x3F), StdPadding, StdPadding]
  | [] => []

/-- The 6-bit value of a character of the alphabet: `enc.decodeMap[c]`, `none` for a byte
outside the alphabet. -/
def decode (c : Byte) : Option Nat :=
  let i := encodeURL.indexOf c
  if i < 64 then some i else none

/-- The call `base64.URLEncoding.DecodeString(s)` on a string without line breaks: quanta
of four characters give three bytes each, a last quantum padded with one or two `=` gives
two or one bytes, anything else is a corrupt input (`none`). -/
def DecodeString : Bytes → Option Bytes
  | [] => some []
  | c0 :: c1 :: c2 :: c3 :: rest =>
    match decode c0, decode c1 with
    | some d0, some d1 =>
      if c2 = StdPadding then
        if c3 = StdPadding ∧ rest = [] then
          let val := d0 <<< 18 ||| d1 <<< 12
          some [Fin.ofNat (val >>> 16)]
        else none
      else
        match decode c2 with
        | some d2 =>
          if c3 = StdPadding then
            if rest = [] then
              let val := d0 <<< 18 ||| d1 <<< 12 ||| d2 <<< 6
              some [Fin.ofNat (val >>> 16), Fin.ofNat (val >>> 8)]
            else none
          else
            match decode c3, DecodeString rest with
            | some d3, some tail =>
              let val := d0 <<< 18 ||| d1 <<< 12 ||| d2 <<< 6 ||| d3
              some (Fin.ofNat (val >>> 16) :: Fin.ofNat (val >>> 8) :: Fin.ofNat val :: tail)
            | _, _ => none
        | none => none
    | _, _ => none
  | _ => none

end base64

/-! ## `conf`, `net/http` and `seekable` -/

namespace conf

/-- Modelled from the spec: the constant `conf.CONTENT_TYPE_JSON`, declared outside the
file; the spec names the JSON type `application/json`. -/
def CONTENT_TYPE_JSON : Bytes := str "application/json"

/-- Modelled from the spec: the constant `conf.CONTENT_TYPE_FORM`, declared outside the
file; the spec calls it the single recognized form-encoded MIME type. -/
def CONTENT_TYPE_FORM : Bytes := str "application/x-www-form-urlencoded"

end conf

/-- The fields of `url.URL` the signer reads. -/
structure URL where
  Path : Bytes
  RawQuery : Bytes
deriving DecidableEq, Repr

/-- An `http.Header`: canonical header names with their values. -/
abbrev Header := List (Bytes × List Bytes)

/-- The call `h.Get(key)` for a key in canonical form: the first value stored under the
key, the empty string when there is none. -/
def Header.Get (h : Header) (key : Bytes) : Bytes :=
  match h.lookup key with
  | some (v :: _) => v
  | _ => []

/-- A request body as `seekable.New` finds it: either it can be buffered, and `Bytes()`
then returns its full content, or buffering it fails with an error. -/
inductive Body where
  | bytes (content : Bytes)
  | unreadable (err : GoError)
deriving DecidableEq, Repr

/-- The fields of `http.Request` the signer reads; `Body` is `none` for a `nil` body. -/
structure Request where
  Method : Bytes
  URL : URL
  Host : Bytes
  Header : Header
  Body : Option Body
deriving DecidableEq, Repr

namespace seekable

/-- The error `seekable.ErrNoBody`. -/
def ErrNoBody : GoError := ⟨"no body"⟩

/-- The buffered body returned by `seekable.New`. -/
structure SeekableCloser where
  buf : Bytes
deriving DecidableEq, Repr

/-- The call `r.Bytes()`: the whole buffered body. -/
def SeekableCloser.Bytes (r : SeekableCloser) : Bytes := r.buf

/-- The call `seekable.New(req)`: the buffered body, or the error met while making the
body available. -/
def New (req : Request) : Except GoError SeekableCloser :=
  match req.Body with
  | none => .error ErrNoBody
  | some (Body.bytes content) => .ok ⟨content⟩
  | some (Body.unreadable err) => .error err

end seekable

/-! ## `auth/authorization.go` -/

/-- The credential: the public access key and the secret key bytes. -/
structure Authorization where
  AccessKey : Bytes
  SecretKey : Bytes
deriving DecidableEq, Repr

/-- The constructor `New(accessKey, secretKey)`. -/
def New (accessKey secretKey : Bytes) : Authorization := ⟨accessKey, secretKey⟩

/-- The call `fmt.Sprintf("%s:%s", a, b)`. -/
def Sprintf2 (a b : Bytes) : Bytes := a ++ str ":" ++ b

/-- The call `fmt.Sprintf("%s:%s:%s", a, b, c)`. -/
def Sprintf3 (a b c : Bytes) : Bytes := a ++ str ":" ++ b ++ str ":" ++ c

/-- The method `Sign` (lines 28-34). -/
def Authorization.Sign (ath : Authorization) (data : Bytes) : Bytes :=
  let h := hmac.New ath.SecretKey
  let h := h.Write data
  let sign := base64.EncodeToString (h.Sum [])
  Sprintf2 ath.AccessKey sign

/-- The method `SignWithData` (lines 37-41). -/
def Authorization.SignWithData (ath : Authorization) (b : Bytes) : Bytes :=
  let encodedData := base64.EncodeToString b
  let sign := ath.Sign b
  Sprintf3 ath.AccessKey sign encodedData

/-- The function `incBody` (lines 102-104). -/
def incBody (req : Request) : Bool :=
  req.Body.isSome && req.Header.Get (str "Content-Type") == conf.CONTENT_TYPE_FORM

/-- The function `incBodyV2` (lines 106-109). -/
def incBodyV2 (req : Request) : Bool :=
  let contentType := req.Header.Get (str "Content-Type")
  req.Body.isSome &&
    (contentType == conf.CONTENT_TYPE_FORM || contentType == conf.CONTENT_TYPE_JSON)

/-- Lines 45-59 of `SignRequest`: the value of `data` when line 60 passes it to `Sign`, or
the error returned at line 56.  The source appends `s2.Bytes()` to `data`, which is read as
appending all its bytes. -/
def SignRequest.data (req : Request) : Except GoError Bytes :=
  let u := req.URL
  let s := u.Path
  let s := if u.RawQuery ≠ [] then s ++ (str "?" ++ u.RawQuery) else s
  let s := s ++ str "\n"
  let data := s
  if incBody req then
    match seekable.New req with
    | .error err2 => .error err2
    | .ok s2 => .ok (data ++ s2.Bytes)
  else .ok data

/-- The method `SignRequest` (lines 44-62): the pair `(token, err)`. -/
def Authorization.SignRequest (ath : Authorization) (req : Request) :
    Bytes × Option GoError :=
  match SignRequest.data req with
  | .error err2 => ([], some err2)
  | .ok data => (ath.Sign data, none)

/-- Lines 66-95 of `SignRequestV2`: the value of `data` when line 97 passes it to `Sign`,
or the error returned at line 92. -/
def SignRequestV2.data (req : Request) : Except GoError Bytes :=
  let u := req.URL
  let s := req.Method ++ str " " ++ u.Path
  let s := if u.RawQuery ≠ [] then s ++ str "?" ++ u.RawQuery else s
  let s := s ++ str "\nHost: "
  let s := s ++ req.Host
  let contentType := req.Header.Get (str "Content-Type")
  let s := if contentType ≠ [] then s ++ str "\n" ++ (str "Content-Type: " ++ contentType) else s
  let s := s ++ str "\n\n"
  let data := s
  if incBodyV2 req then
    match seekable.New req with
    | .error err2 => .error err2
    | .ok s2 => .ok (data ++ s2.Bytes)
  else .ok data

/-- The method `SignRequestV2` (lines 65-99): the pair `(token, err)`. -/
def Authorization.SignRequestV2 (ath : Authorization) (req : Request) :
    Bytes × Option GoError :=
  match SignRequestV2.data req with
  | .error err2 => ([], some err2)
  | .ok data => (ath.Sign data, none)

/-- The method `VerifyCallback` (lines 112-124): the pair `(bool, err)`. -/
def Authorization.VerifyCallback (ath : Authorization) (req : Request) :
    Bool × Option GoError :=
  let auth := req.Header.Get (str "Authorization")
  if auth = [] then (false, none)
  else
    match ath.SignRequest req with
    | (_, some err) => (false, some err)
    | (token, none) => (auth == str "QBox " ++ token, none)

/-! ## The formats the specification describes -/

/-- The V1 canonical bytes as the specification writes them: the path, `?` and the raw
query when there is one, a newline, and the body when it is to be included. -/
def canonicalV1 (path rawQuery : Bytes) (body : Option Bytes) : Bytes :=
  path ++ (if rawQuery = [] then [] else str "?" ++ rawQuery) ++ str "\n" ++
    (match body with
     | some b => b
     | none => [])

/-- The V2 canonical bytes as the specification writes them: the request line, the
`Host` line, the `Content-Type` line when the header is non-empty, a blank line, and the
body when it is to be included. -/
def canonicalV2 (method path rawQuery host contentType : Bytes) (body : Option Bytes) :
    Bytes :=
  method ++ str " " ++ path ++ (if rawQuery = [] then [] else str "?" ++ rawQuery) ++
    str "\nHost: " ++ host ++
    (if contentType = [] then [] else str "\nContent-Type: " ++ contentType) ++
    str "\n\n" ++
    (match body with
     | some b => b
     | none => [])

/-- The body the specification includes in the V1 canonical bytes: the full body when a
body is present and the content type is exactly the form-encoded type. -/
def includedV1 (contentType : Bytes) (body : Option Bytes) : Option Bytes :=
  match body with
  | some b => if contentType = conf.CONTENT_TYPE_FORM then some b else none
  | none => none

/-- The body the specification includes in the V2 canonical bytes: the full body when a
body is present and the content type is the form-encoded type or the JSON type. -/
def includedV2 (contentType : Bytes) (body : Option Bytes) : Option Bytes :=
  match body with
  | some b =>
    if contentType = conf.CONTENT_TYPE_FORM ∨ contentType = conf.CONTENT_TYPE_JSON then some b
    else none
  | none => none

/-- The content of a request body that can be read, `none` when there is no body or it
cannot be read. -/
def Request.bodyBytes (req : Request) : Option Bytes :=
  match req.Body with
  | some (Body.bytes content) => some content
  | _ => none

/-- The segments of a token between its `:` separators (`strings.Split(s, ":")`). -/
def splitColon : Bytes → List Bytes
  | [] => [[]]
  | c :: cs =>
    if c = 58 then [] :: splitColon cs
    else
      match splitColon cs with
      | seg :: segs => (c :: seg) :: segs
      | [] => [[c]]

/-! ## Example inputs -/

/-- A credential: access key `ak`, secret key `sk`. -/
def exampleAuth : Authorization := New (str "ak") (str "sk")

/-- The request `GET /foo` to host `x.com`, without query, headers or body. -/
def reqFoo : Request :=
  ⟨str "GET", ⟨str "/foo", []⟩, str "x.com", [], none⟩

/-- The request `POST /foo?a=1` with the form-encoded content type and body `bar`. -/
def reqFooForm : Request :=
  ⟨str "POST", ⟨str "/foo", str "a=1"⟩, str "x.com",
    [(str "Content-Type", [conf.CONTENT_TYPE_FORM])], some (Body.bytes (str "bar"))⟩

/-- The request `POST /foo` with the JSON content type and the two-byte body of an empty
JSON object. -/
def reqJson : Request :=
  ⟨str "POST", ⟨str "/foo", []⟩, str "x.com",
    [(str "Content-Type", [conf.CONTENT_TYPE_JSON])], some (Body.bytes [123, 125])⟩

/-- The request `POST /foo` with content type `multipart/form-data` and the same body. -/
def reqMultipart : Request :=
  ⟨str "POST", ⟨str "/foo", []⟩, str "x.com",
    [(str "Content-Type", [str "multipart/form-data"])], some (Body.bytes [123, 125])⟩

/-- The error of a body that cannot be buffered. -/
def errEOF : GoError := ⟨"unexpected EOF"⟩

/-- A form-encoded request without `Authorization` header whose body cannot be read. -/
def reqBroken : Request :=
  ⟨str "POST", ⟨str "/foo", []⟩, str "x.com",
    [(str "Content-Type", [conf.CONTENT_TYPE_FORM])], some (Body.unreadable errEOF)⟩

/-- A form-encoded request with an `Authorization` header whose body cannot be read. -/
def reqBrokenAuth : Request :=
  ⟨str "POST", ⟨str "/foo", []⟩, str "x.com",
    [(str "Content-Type", [conf.CONTENT_TYPE_FORM]), (str "Authorization", [str "QBox ak:x"])],
    some (Body.unreadable errEOF)⟩

/-- A callback `POST /foo` carrying the V1 token of `exampleAuth` for it. -/
def reqCallback : Request :=
  ⟨str "POST", ⟨str "/foo", []⟩, str "x.com",
    [(str "Authorization", [str "QBox ak:QzsW24mtoDEGJRO2Bs7i5Kw36JI="])], none⟩

/-! ## Further definitions -/

/-- The characters of the URL-safe base64 alphabet: `A-Z`, `a-z`, `0-9`, `-` and `_`. -/
def isURLSafe (c : Byte) : Bool :=
  (65 ≤ c.val && c.val ≤ 90) || (97 ≤ c.val && c.val ≤ 122) || (48 ≤ c.val && c.val ≤ 57) ||
    c.val == 45 || c.val == 95

/-- A credential with access key `ak` and the empty secret key. -/
def authEmptyKey : Authorization := New (str "ak") []

/-- A credential with access key `ak` and a secret key of one zero byte. -/
def authZeroKey : Authorization := New (str "ak") [0]

/-- A request with method `GET` whose host continues with a second request line. -/
def reqSplitHost : Request :=
  ⟨str "GET", ⟨str "/a", []⟩, str "x /a\nHost: y", [], none⟩

/-- A request to host `y` whose method continues with a `Host` line. -/
def reqSplitMethod : Request :=
  ⟨str "GET /a\nHost: x", ⟨str "/a", []⟩, str "y", [], none⟩

/-- A form-encoded request whose body `x` ends with a blank line. -/
def reqFormBlank : Request :=
  ⟨str "POST", ⟨str "/a", []⟩, str "x.com",
    [(str "Content-Type", [conf.CONTENT_TYPE_FORM])], some (Body.bytes (str "x\n\n"))⟩

/-- The same request with a content type that continues with a blank line and `x`. -/
def reqTypeBlank : Request :=
  ⟨str "POST", ⟨str "/a", []⟩, str "x.com",
    [(str "Content-Type", [conf.CONTENT_TYPE_FORM ++ str "\n\nx"])],
    some (Body.bytes (str "x\n\n"))⟩

/-- The request `DELETE /foo` to host `y.org`: `reqFoo` with another method and host. -/
def reqFooDelete : Request :=
  ⟨str "DELETE", ⟨str "/foo", []⟩, str "y.org", [], none⟩

/-- The request `GET` with path `/a?b` and no query. -/
def reqQueryInPath : Request :=
  ⟨str "GET", ⟨str "/a?b", []⟩, str "x.com", [], none⟩

/-- The request `GET` with path `/a` and query `b`. -/
def reqQuerySplit : Request :=
  ⟨str "GET", ⟨str "/a", str "b"⟩, str "x.com", [], none⟩

/-- A credential whose secret key is the path `/foo`. -/
def authPathKey : Authorization := New (str "ak") (str "/foo")

/-- A credential whose secret key `a` is the first byte of its access key. -/
def authShortKey : Authorization := New (str "ak") (str "a")

/-- A JSON callback `POST /foo` carrying the V1 token of `exampleAuth` for `/foo`. -/
def reqJsonCallback : Request :=
  ⟨str "POST", ⟨str "/foo", []⟩, str "x.com",
    [(str "Content-Type", [conf.CONTENT_TYPE_JSON]),
      (str "Authorization", [str "QBox ak:QzsW24mtoDEGJRO2Bs7i5Kw36JI="])],
    some (Body.bytes [123, 125])⟩

/-! ## The body stream -/

/-- The body stream of a request as package `seekable` (library `github.com/qiniu/x`, not
part of the file) works on it: the request, the bytes a reader of its body still obtains,
and the number of these bytes a failing read consumes before it fails. -/
structure RequestStream where
  req : Request
  rest : Bytes
  failAfter : Nat
deriving DecidableEq, Repr

/-- The call `seekable.ReadAll(req)`: a body that can be read is read to its end, which
leaves nothing in the stream; a failing read stops with its error after `failAfter` bytes,
which are gone from the stream. -/
def seekable.ReadAll (s : RequestStream) : Except GoError Bytes × RequestStream :=
  match s.req.Body with
  | none => (.error seekable.ErrNoBody, s)
  | some (Body.bytes _) => (.ok s.rest, { s with rest := [] })
  | some (Body.unreadable err) => (.error err, { s with rest := s.rest.drop s.failAfter })

/-- The call `seekable.New(req)` with its effect on the body stream, as the library behaves:
when the read succeeds, the body of the request is replaced by a reader over the bytes
read (`req.Body = readCloser{r, req.Body}`), which a later reader obtains again; when the
read fails, the error is returned and the stream stays as the failed read left it.  The
value returned is the one of `seekable.New`. -/
def seekable.NewStream (s : RequestStream) :
    Except GoError seekable.SeekableCloser × RequestStream :=
  match seekable.ReadAll s with
  | (.error err2, s1) => (.error err2, s1)
  | (.ok b, s1) => (seekable.New s.req, { s1 with rest := b })

/-- The method `SignRequest` (lines 44-62) with the body stream threaded through: the
pair `(token, err)` and the stream after the call. -/
def Authorization.SignRequestStream (ath : Authorization) (s : RequestStream) :
    (Bytes × Option GoError) × RequestStream :=
  let req := s.req
  let u := req.URL
  let p := u.Path
  let p := if u.RawQuery ≠ [] then p ++ (str "?" ++ u.RawQuery) else p
  let p := p ++ str "\n"
  let data := p
  if incBody req then
    match seekable.NewStream s with
    | (.error err2, s1) => (([], some err2), s1)
    | (.ok s2, s1) => ((ath.Sign (data ++ s2.Bytes), none), s1)
  else ((ath.Sign data, none), s)

/-- The method `SignRequestV2` (lines 65-99) with the body stream threaded through. -/
def Authorization.SignRequestV2Stream (ath : Authorization) (s : RequestStream) :
    (Bytes × Option GoError) × RequestStream :=
  let req := s.req
  let u := req.URL
  let p := req.Method ++ str " " ++ u.Path
  let p := if u.RawQuery ≠ [] then p ++ str "?" ++ u.RawQuery else p
  let p := p ++ str "\nHost: "
  let p := p ++ req.Host
  let contentType := req.Header.Get (str "Content-Type")
  let p := if contentType ≠ [] then p ++ str "\n" ++ (str "Content-Type: " ++ contentType) else p
  let p := p ++ str "\n\n"
  let data := p
  if incBodyV2 req then
    match seekable.NewStream s with
    | (.error err2, s1) => (([], some err2), s1)
    | (.ok s2, s1) => ((ath.Sign (data ++ s2.Bytes), none), s1)
  else ((ath.Sign data, none), s)

/-- The method `VerifyCallback` (lines 112-124) with the body stream threaded through. -/
def Authorization.VerifyCallbackStream (ath : Authorization) (s : RequestStream) :
    (Bool × Option GoError) × RequestStream :=
  let auth := s.req.Header.Get (str "Authorization")
  if auth = [] then ((false, none), s)
  else
    match ath.SignRequestStream s with
    | ((_, some err), s1) => ((false, some err), s1)
    | ((token, none), s1) => ((auth == str "QBox " ++ token, none), s1)

/-- The form-encoded request with body `bar`, still unread. -/
def streamFooForm : RequestStream := ⟨reqFooForm, str "bar", 0⟩

/-- A form-encoded request whose stream still holds `bar` and whose read fails at the end
of these three bytes, as for a body shorter than its declared length. -/
def streamBroken : RequestStream := ⟨reqBrokenAuth, str "bar", 3⟩

end auth

namespace auth

/-! ## The keyed hash -/

theorem sha1_putUint_length (n v : Nat) : (sha1.putUint n v).length = n := by
  simp [sha1.putUint]

theorem sha1_Sum_length (data : Bytes) : (sha1.Sum data).length = 20 := by
  simp only [sha1.Sum, List.length_append, sha1_putUint_length]

theorem hmac_copy_zero (n : Nat) (k : Bytes) (hk : k.length ≤ n) :
    hmac.copy (List.replicate n (0 : Byte)) k = k ++ List.replicate (n - k.length) 0 := by
  simp [hmac.copy, List.take_of_length_le hk]

theorem sha1_New_Write (p : Bytes) : sha1.New.Write p = ⟨p⟩ := by
  unfold sha1.New sha1.digest.Write
  rw [List.nil_append]

theorem sha1_digest_Sum_nil (d : sha1.digest) : d.Sum [] = sha1.Sum d.written := by
  unfold sha1.digest.Sum
  rw [List.nil_append]

theorem keyBlock_copy (key : Bytes) :
    hmac.copy (List.replicate 64 (0 : Byte))
      (if key.length > 64 then ((⟨key⟩ : sha1.digest), sha1.Sum key)
        else ((⟨[]⟩ : sha1.digest), key)).2 = keyBlock key := by
  unfold keyBlock
  by_cases hk : key.length > 64
  · have h20 : (sha1.Sum key).length ≤ 64 := by rw [sha1_Sum_length]; omega
    simp only [hk, if_true]
    exact hmac_copy_zero 64 _ h20
  · simp only [hk, if_false]
    exact hmac_copy_zero 64 key (by omega)

theorem hmac_New_opad (key : Bytes) :
    (hmac.New key).opad = (keyBlock key).map (fun x => x ^^^ 0x5c) := by
  unfold hmac.New
  simp only [sha1.digest.BlockSize, sha1.BlockSize, sha1_New_Write, sha1_digest_Sum_nil]
  rw [sha1.New, keyBlock_copy]

theorem hmac_New_inner (key : Bytes) :
    (hmac.New key).inner = ⟨(keyBlock key).map (fun x => x ^^^ 0x36)⟩ := by
  unfold hmac.New
  simp only [sha1.digest.BlockSize, sha1.BlockSize, sha1_New_Write, sha1_digest_Sum_nil]
  rw [sha1.New, keyBlock_copy]

/-- The `crypto/hmac` object computes the HMAC of RFC 2104: after `New(key)` and
`Write(data)`, `Sum(nil)` is `HMAC_SHA1 key data`. -/
theorem hmac_Sum_eq (key data : Bytes) :
    ((hmac.New key).Write data).Sum [] = HMAC_SHA1 key data := by
  unfold HMAC_SHA1 hmac.HMAC.Sum hmac.HMAC.Write
  simp only [hmac_New_opad, hmac_New_inner, sha1_digest_Sum_nil, sha1.digest.Write,
    sha1.digest.Reset, List.length_nil, List.drop_zero, List.take_zero]
  rw [List.nil_append]

theorem HMAC_SHA1_length (key text : Bytes) : (HMAC_SHA1 key text).length = 20 := by
  unfold HMAC_SHA1
  rw [sha1_Sum_length]

theorem Sign_eq (ath : Authorization) (data : Bytes) :
    ath.Sign data =
      ath.AccessKey ++ str ":" ++ base64.EncodeToString (HMAC_SHA1 ath.SecretKey data) := by
  unfold Authorization.Sign Sprintf2
  simp only [hmac_Sum_eq]

/-- Claim C1: for every credential and every byte sequence `data`, the empty one included, `Sign`
returns the access key, a colon and the padded URL-safe base64 encoding of the 20-byte
HMAC-SHA1 of `data` under the secret key; it is a total function with no failure result. -/
theorem Sign_token (ath : Authorization) (data : Bytes) :
    ath.Sign data =
        ath.AccessKey ++ str ":" ++ base64.EncodeToString (HMAC_SHA1 ath.SecretKey data) ∧
      (HMAC_SHA1 ath.SecretKey data).length = 20 ∧
      ath.Sign [] =
        ath.AccessKey ++ str ":" ++ base64.EncodeToString (HMAC_SHA1 ath.SecretKey []) :=
  ⟨Sign_eq ath data, HMAC_SHA1_length _ _, Sign_eq ath []⟩

/-! ## Canonical bytes of a request -/

theorem seekable_New_bytes (req : Request) (b : Bytes) (h : req.Body = some (Body.bytes b)) :
    seekable.New req = .ok ⟨b⟩ := by
  unfold seekable.New
  rw [h]

theorem seekable_New_unreadable (req : Request) (e : GoError)
    (h : req.Body = some (Body.unreadable e)) : seekable.New req = .error e := by
  unfold seekable.New
  rw [h]

/-- The first 50 lines of `SignRequest`: the path, the query and the newline. -/
theorem SignRequest_data_eq (req : Request) :
    SignRequest.data req =
      if incBody req then
        match seekable.New req with
        | .error err2 => .error err2
        | .ok s2 => .ok (canonicalV1 req.URL.Path req.URL.RawQuery (some s2.Bytes))
      else .ok (canonicalV1 req.URL.Path req.URL.RawQuery none) := by
  unfold SignRequest.data canonicalV1
  by_cases hq : req.URL.RawQuery = [] <;> by_cases hb : incBody req = true <;>
    cases hs : seekable.New req <;> simp [hq, hb, hs]

theorem str_content_type_line :
    str "\nContent-Type: " = str "\n" ++ str "Content-Type: " := by
  decide

theorem SignRequestV2_data_eq (req : Request) :
    SignRequestV2.data req =
      if incBodyV2 req then
        match seekable.New req with
        | .error err2 => .error err2
        | .ok s2 => .ok (canonicalV2 req.Method req.URL.Path req.URL.RawQuery req.Host
            (req.Header.Get (str "Content-Type")) (some s2.Bytes))
      else .ok (canonicalV2 req.Method req.URL.Path req.URL.RawQuery req.Host
            (req.Header.Get (str "Content-Type")) none) := by
  unfold SignRequestV2.data canonicalV2
  by_cases hq : req.URL.RawQuery = [] <;> by_cases hb : incBodyV2 req = true <;>
    by_cases hc : req.Header.Get (str "Content-Type") = [] <;>
    cases hs : seekable.New req <;> simp [hq, hb, hs, hc, str_content_type_line]

theorem incBody_eq_true_iff (req : Request) :
    incBody req = true ↔
      req.Body.isSome = true ∧ req.Header.Get (str "Content-Type") = conf.CONTENT_TYPE_FORM := by
  simp [incBody]

theorem incBodyV2_eq_true_iff (req : Request) :
    incBodyV2 req = true ↔
      req.Body.isSome = true ∧
        (req.Header.Get (str "Content-Type") = conf.CONTENT_TYPE_FORM ∨
          req.Header.Get (str "Content-Type") = conf.CONTENT_TYPE_JSON) := by
  simp [incBodyV2]

theorem SignRequest_of_data (ath : Authorization) (req : Request) (d : Bytes)
    (h : SignRequest.data req = .ok d) : ath.SignRequest req = (ath.Sign d, none) := by
  unfold Authorization.SignRequest
  rw [h]

theorem SignRequestV2_of_data (ath : Authorization) (req : Request) (d : Bytes)
    (h : SignRequestV2.data req = .ok d) : ath.SignRequestV2 req = (ath.Sign d, none) := by
  unfold Authorization.SignRequestV2
  rw [h]

theorem SignRequest_data_included (req : Request)
    (h : ∀ e, req.Body = some (Body.unreadable e) →
      req.Header.Get (str "Content-Type") ≠ conf.CONTENT_TYPE_FORM) :
    SignRequest.data req =
      .ok (canonicalV1 req.URL.Path req.URL.RawQuery
        (includedV1 (req.Header.Get (str "Content-Type")) req.bodyBytes)) := by
  rw [SignRequest_data_eq]
  rcases hb : req.Body with _ | ⟨b | e⟩
  · simp [incBody, hb, includedV1, Request.bodyBytes]
  · by_cases hc : req.Header.Get (str "Content-Type") = conf.CONTENT_TYPE_FORM
    · simp [incBody, hb, hc, includedV1, Request.bodyBytes, seekable.New,
        seekable.SeekableCloser.Bytes]
    · simp [incBody, hb, hc, includedV1, Request.bodyBytes]
  · have hc := h e hb
    simp [incBody, hb, hc, includedV1, Request.bodyBytes]

theorem SignRequestV2_data_included (req : Request)
    (h : ∀ e, req.Body = some (Body.unreadable e) →
      req.Header.Get (str "Content-Type") ≠ conf.CONTENT_TYPE_FORM ∧
        req.Header.Get (str "Content-Type") ≠ conf.CONTENT_TYPE_JSON) :
    SignRequestV2.data req =
      .ok (canonicalV2 req.Method req.URL.Path req.URL.RawQuery req.Host
        (req.Header.Get (str "Content-Type"))
        (includedV2 (req.Header.Get (str "Content-Type")) req.bodyBytes)) := by
  rw [SignRequestV2_data_eq]
  rcases hb : req.Body with _ | ⟨b | e⟩
  · simp [incBodyV2, hb, includedV2, Request.bodyBytes]
  · by_cases hc : req.Header.Get (str "Content-Type") = conf.CONTENT_TYPE_FORM ∨
        req.Header.Get (str "Content-Type") = conf.CONTENT_TYPE_JSON
    · have hi : incBodyV2 req = true := (incBodyV2_eq_true_iff req).2 ⟨by simp [hb], hc⟩
      simp [hi, hb, hc, includedV2, Request.bodyBytes, seekable.New,
        seekable.SeekableCloser.Bytes]
    · have hi : ¬ incBodyV2 req = true := fun hi => hc ((incBodyV2_eq_true_iff req).1 hi).2
      simp [hi, hb, hc, includedV2, Request.bodyBytes]
  · have hc := h e hb
    have hi : ¬ incBodyV2 req = true := fun hi =>
      (((incBodyV2_eq_true_iff req).1 hi).2).elim hc.1 hc.2
    simp [hi, hb, hc, includedV2, Request.bodyBytes]

/-- Claim C2: for every request whose body, when it is to be included, can be read, the bytes
`SignRequest` passes to `Sign` are the path, `?` and the raw query when the query is
non-empty, a newline, and the full body when a body is present and the `Content-Type`
header is exactly the form-encoded type (nothing otherwise); the token is `Sign` of these
bytes. -/
theorem SignRequest_canonical_bytes (ath : Authorization) (req : Request)
    (h : ∀ e, req.Body = some (Body.unreadable e) →
      req.Header.Get (str "Content-Type") ≠ conf.CONTENT_TYPE_FORM) :
    SignRequest.data req =
        .ok (canonicalV1 req.URL.Path req.URL.RawQuery
          (includedV1 (req.Header.Get (str "Content-Type")) req.bodyBytes)) ∧
      ath.SignRequest req =
        (ath.Sign (canonicalV1 req.URL.Path req.URL.RawQuery
          (includedV1 (req.Header.Get (str "Content-Type")) req.bodyBytes)), none) :=
  ⟨SignRequest_data_included req h,
    SignRequest_of_data ath req _ (SignRequest_data_included req h)⟩

/-- Claim C3: for every request whose body, when it is to be included, can be read, the bytes
`SignRequestV2` passes to `Sign` are the method, a space, the path, `?` and the raw query
when the query is non-empty, the `Host` line, the `Content-Type` line when the header is
non-empty, a blank line, and the full body when a body is present and the content type is
the form-encoded type or the JSON type (nothing otherwise); the token is `Sign` of these
bytes. -/
theorem SignRequestV2_canonical_bytes (ath : Authorization) (req : Request)
    (h : ∀ e, req.Body = some (Body.unreadable e) →
      req.Header.Get (str "Content-Type") ≠ conf.CONTENT_TYPE_FORM ∧
        req.Header.Get (str "Content-Type") ≠ conf.CONTENT_TYPE_JSON) :
    SignRequestV2.data req =
        .ok (canonicalV2 req.Method req.URL.Path req.URL.RawQuery req.Host
          (req.Header.Get (str "Content-Type"))
          (includedV2 (req.Header.Get (str "Content-Type")) req.bodyBytes)) ∧
      ath.SignRequestV2 req =
        (ath.Sign (canonicalV2 req.Method req.URL.Path req.URL.RawQuery req.Host
          (req.Header.Get (str "Content-Type"))
          (includedV2 (req.Header.Get (str "Content-Type")) req.bodyBytes)), none) :=
  ⟨SignRequestV2_data_included req h,
    SignRequestV2_of_data ath req _ (SignRequestV2_data_included req h)⟩

/-! ## Callback verification -/

theorem str_QBox_append_ne_nil (t : Bytes) : str "QBox " ++ t ≠ [] := by
  have h : str "QBox " = 81 :: str "Box " := by decide
  rw [h]
  simp

theorem Header_Get_of_lookup_none (h : Header) (key : Bytes) (hk : h.lookup key = none) :
    h.Get key = [] := by
  unfold Header.Get
  rw [hk]

theorem VerifyCallback_of_no_auth (ath : Authorization) (req : Request)
    (h : req.Header.Get (str "Authorization") = []) :
    ath.VerifyCallback req = (false, none) := by
  unfold Authorization.VerifyCallback
  simp [h]

theorem VerifyCallback_of_auth (ath : Authorization) (req : Request)
    (h : req.Header.Get (str "Authorization") ≠ []) :
    ath.VerifyCallback req =
      match ath.SignRequest req with
      | (_, some err) => (false, some err)
      | (token, none) => (req.Header.Get (str "Authorization") == str "QBox " ++ token, none) := by
  unfold Authorization.VerifyCallback
  simp [h]

/-- Claim C4: `VerifyCallback` returns `(true, nil)` exactly when `SignRequest` on the same request
succeeds with a token `t` and the `Authorization` header is byte for byte `"QBox " ++ t`. -/
theorem VerifyCallback_true_iff (ath : Authorization) (req : Request) :
    ath.VerifyCallback req = (true, none) ↔
      ∃ t, ath.SignRequest req = (t, none) ∧
        req.Header.Get (str "Authorization") = str "QBox " ++ t := by
  constructor
  · intro hv
    by_cases ha : req.Header.Get (str "Authorization") = []
    · rw [VerifyCallback_of_no_auth ath req ha] at hv
      simp at hv
    · rw [VerifyCallback_of_auth ath req ha] at hv
      rcases hs : ath.SignRequest req with ⟨t, _ | e⟩
      · rw [hs] at hv
        refine ⟨t, rfl, ?_⟩
        simpa using hv
      · rw [hs] at hv
        simp at hv
  · rintro ⟨t, hs, ha⟩
    have hne : req.Header.Get (str "Authorization") ≠ [] := by
      rw [ha]
      exact str_QBox_append_ne_nil t
    rw [VerifyCallback_of_auth ath req hne, hs]
    simp [ha]

/-- Claim C5: when the `Authorization` header is absent or empty, `VerifyCallback` returns
`(false, nil)` whatever the body is, also when the body would have to be read and cannot
be. -/
theorem VerifyCallback_no_authorization (ath : Authorization) (req : Request)
    (h : req.Header.lookup (str "Authorization") = none ∨
      req.Header.Get (str "Authorization") = []) :
    ath.VerifyCallback req = (false, none) := by
  rcases h with h | h
  · exact VerifyCallback_of_no_auth ath req (Header_Get_of_lookup_none _ _ h)
  · exact VerifyCallback_of_no_auth ath req h

/-- Claim C6: with a non-empty `Authorization` header, the error of `VerifyCallback` is the error
of `SignRequest` on the same request (non-nil exactly when that one is, and then the same
error, returned with `false`); so a failure to read the body is never `(false, nil)`, and
`(true, err)` with a non-nil `err` is never returned. -/
theorem VerifyCallback_error (ath : Authorization) (req : Request)
    (h : req.Header.Get (str "Authorization") ≠ []) :
    (ath.VerifyCallback req).2 = (ath.SignRequest req).2 ∧
      (∀ e, (ath.SignRequest req).2 = some e → ath.VerifyCallback req = (false, some e)) ∧
      ((ath.SignRequest req).2 ≠ none → ath.VerifyCallback req ≠ (false, none)) ∧
      (∀ e, ath.VerifyCallback req ≠ (true, some e)) := by
  rw [VerifyCallback_of_auth ath req h]
  rcases hs : ath.SignRequest req with ⟨t, _ | e⟩ <;> simp

/-! ## Body inclusion and errors -/

theorem SignRequestV2_data_no_body (req : Request) :
    SignRequestV2.data { req with Body := none } =
      .ok (canonicalV2 req.Method req.URL.Path req.URL.RawQuery req.Host
        (req.Header.Get (str "Content-Type")) none) := by
  rw [SignRequestV2_data_eq]
  simp [incBodyV2]

theorem canonicalV2_some (method path rawQuery host contentType b : Bytes) :
    canonicalV2 method path rawQuery host contentType (some b) =
      canonicalV2 method path rawQuery host contentType none ++ b := by
  simp [canonicalV2]

/-- Claim C9: for a request with a body present: when the content type is the JSON type and the
body can be read, the V2 canonical bytes are those of the same request without a body
followed by the full body; when the content type is neither the form-encoded type nor the
JSON type (`multipart/form-data` is such a type), the V2 canonical bytes and the token of
`SignRequestV2` are those of the same request without a body. -/
theorem SignRequestV2_body_rule (ath : Authorization) (req : Request)
    (hbody : req.Body.isSome = true) :
    (∀ b, req.Header.Get (str "Content-Type") = conf.CONTENT_TYPE_JSON →
        req.Body = some (Body.bytes b) →
        ∃ d, SignRequestV2.data { req with Body := none } = .ok d ∧
          SignRequestV2.data req = .ok (d ++ b) ∧ b <:+ d ++ b) ∧
      (req.Header.Get (str "Content-Type") ≠ conf.CONTENT_TYPE_FORM →
        req.Header.Get (str "Content-Type") ≠ conf.CONTENT_TYPE_JSON →
        SignRequestV2.data req = SignRequestV2.data { req with Body := none } ∧
          ath.SignRequestV2 req = ath.SignRequestV2 { req with Body := none }) ∧
      str "multipart/form-data" ≠ conf.CONTENT_TYPE_FORM ∧
      str "multipart/form-data" ≠ conf.CONTENT_TYPE_JSON := by
  refine ⟨?_, ?_, by decide, by decide⟩
  · intro b hc hb
    refine ⟨_, SignRequestV2_data_no_body req, ?_, List.suffix_append _ _⟩
    rw [SignRequestV2_data_eq]
    have hi : incBodyV2 req = true := (incBodyV2_eq_true_iff req).2 ⟨hbody, Or.inr hc⟩
    simp [hi, seekable.New, hb, seekable.SeekableCloser.Bytes, canonicalV2_some]
  · intro hf hj
    have hi : ¬ incBodyV2 req = true := fun hi =>
      (((incBodyV2_eq_true_iff req).1 hi).2).elim hf hj
    have hd : SignRequestV2.data req = SignRequestV2.data { req with Body := none } := by
      rw [SignRequestV2_data_no_body, SignRequestV2_data_eq]
      simp [hi]
    refine ⟨hd, ?_⟩
    unfold Authorization.SignRequestV2
    rw [hd]

theorem SignRequest_data_error_iff (req : Request) (e : GoError) :
    SignRequest.data req = .error e ↔
      incBody req = true ∧ req.Body = some (Body.unreadable e) := by
  rw [SignRequest_data_eq]
  rcases hb : req.Body with _ | ⟨b | e2⟩ <;> by_cases hi : incBody req = true <;>
    simp [hi, seekable.New, hb]
  simp [incBody, hb] at hi

theorem SignRequestV2_data_error_iff (req : Request) (e : GoError) :
    SignRequestV2.data req = .error e ↔
      incBodyV2 req = true ∧ req.Body = some (Body.unreadable e) := by
  rw [SignRequestV2_data_eq]
  rcases hb : req.Body with _ | ⟨b | e2⟩ <;> by_cases hi : incBodyV2 req = true <;>
    simp [hi, seekable.New, hb]
  simp [incBodyV2, hb] at hi

theorem SignRequest_snd (ath : Authorization) (req : Request) (e : GoError) :
    (ath.SignRequest req).2 = some e ↔ SignRequest.data req = .error e := by
  unfold Authorization.SignRequest
  cases SignRequest.data req <;> simp

theorem SignRequestV2_snd (ath : Authorization) (req : Request) (e : GoError) :
    (ath.SignRequestV2 req).2 = some e ↔ SignRequestV2.data req = .error e := by
  unfold Authorization.SignRequestV2
  cases SignRequestV2.data req <;> simp

/-- Claim C10: `SignRequest` (resp. `SignRequestV2`) returns the error `e` exactly when `incBody`
(resp. `incBodyV2`) holds and making the body available fails with `e`; the token returned
with an error is the empty string, and when the body is excluded the call succeeds. -/
theorem SignRequest_error_iff (ath : Authorization) (req : Request) :
    (∀ e, (ath.SignRequest req).2 = some e ↔
        incBody req = true ∧ seekable.New req = .error e) ∧
      (∀ e, (ath.SignRequestV2 req).2 = some e ↔
        incBodyV2 req = true ∧ seekable.New req = .error e) ∧
      ((ath.SignRequest req).2 ≠ none → (ath.SignRequest req).1 = []) ∧
      ((ath.SignRequestV2 req).2 ≠ none → (ath.SignRequestV2 req).1 = []) ∧
      (incBody req = false → (ath.SignRequest req).2 = none) ∧
      (incBodyV2 req = false → (ath.SignRequestV2 req).2 = none) := by
  refine ⟨?_, ?_, ?_, ?_, ?_, ?_⟩
  · intro e
    rw [SignRequest_snd, SignRequest_data_eq]
    by_cases hi : incBody req = true <;> cases hs : seekable.New req <;> simp [hi, hs]
  · intro e
    rw [SignRequestV2_snd, SignRequestV2_data_eq]
    by_cases hi : incBodyV2 req = true <;> cases hs : seekable.New req <;> simp [hi, hs]
  · unfold Authorization.SignRequest
    cases SignRequest.data req <;> simp
  · unfold Authorization.SignRequestV2
    cases SignRequestV2.data req <;> simp
  · intro hi
    unfold Authorization.SignRequest
    rw [SignRequest_data_eq]
    simp [hi]
  · intro hi
    unfold Authorization.SignRequestV2
    rw [SignRequestV2_data_eq]
    simp [hi]

/-! ## The payload variant -/

theorem SignWithData_eq (ath : Authorization) (b : Bytes) :
    ath.SignWithData b =
      ath.AccessKey ++ str ":" ++
        (ath.AccessKey ++ str ":" ++ base64.EncodeToString (HMAC_SHA1 ath.SecretKey b)) ++
        str ":" ++ base64.EncodeToString b := by
  unfold Authorization.SignWithData Sprintf3
  rw [Sign_eq]

/-- For no credential and no payload is the token of `SignWithData` the three-part token
access key, signature, encoded payload: it is longer by the access key and a colon. -/
theorem SignWithData_ne_three_parts (ath : Authorization) (b : Bytes) :
    ath.SignWithData b ≠
      ath.AccessKey ++ str ":" ++ base64.EncodeToString (HMAC_SHA1 ath.SecretKey b) ++
        str ":" ++ base64.EncodeToString b := by
  rw [SignWithData_eq]
  intro h
  have hl := congrArg List.length h
  have hc : (str ":").length = 1 := by decide
  simp only [List.length_append, hc] at hl
  omega

set_option maxRecDepth 100000 in
theorem HMAC_SHA1_hello :
    HMAC_SHA1 (str "sk") (str "hello") =
      [52, 51, 124, 112, 205, 43, 194, 139, 49, 132, 114, 122, 64, 7, 8, 238, 38, 165, 175,
        72] := by
  decide

theorem Sign_hello :
    exampleAuth.Sign (str "hello") = str "ak:NDN8cM0rwosxhHJ6QAcI7ialr0g=" := by
  rw [Sign_eq]
  have hs : exampleAuth.SecretKey = str "sk" := rfl
  have ha : exampleAuth.AccessKey = str "ak" := rfl
  rw [hs, ha, HMAC_SHA1_hello]
  decide

theorem SignWithData_hello :
    exampleAuth.SignWithData (str "hello") =
      str "ak:ak:NDN8cM0rwosxhHJ6QAcI7ialr0g=:aGVsbG8=" := by
  unfold Authorization.SignWithData Sprintf3
  have ha : exampleAuth.AccessKey = str "ak" := rfl
  rw [Sign_hello, ha]
  decide

/-- Claim C7: for access key `ak`, secret key `sk` and payload `hello`, `SignWithData` returns
`ak:ak:NDN8cM0rwosxhHJ6QAcI7ialr0g=:aGVsbG8=`, the whole token of `Sign` (access key
included) between the access key and the encoded payload, which is not the access key, the
signature part and the encoded payload. -/
theorem SignWithData_doubles_access_key :
    exampleAuth.SignWithData (str "hello") = str "ak:ak:NDN8cM0rwosxhHJ6QAcI7ialr0g=:aGVsbG8=" ∧
      exampleAuth.SignWithData (str "hello") ≠
        exampleAuth.AccessKey ++ str ":" ++
          base64.EncodeToString (HMAC_SHA1 exampleAuth.SecretKey (str "hello")) ++
          str ":" ++ base64.EncodeToString (str "hello") := by
  refine ⟨SignWithData_hello, ?_⟩
  have hs : exampleAuth.SecretKey = str "sk" := rfl
  have ha : exampleAuth.AccessKey = str "ak" := rfl
  rw [SignWithData_hello, hs, ha, HMAC_SHA1_hello]
  decide

/-- Claim C8: for access key `ak` (no colon), secret key `sk` and payload `hello`, the third
colon-delimited segment of `SignWithData` is the signature `NDN8cM0rwosxhHJ6QAcI7ialr0g=`;
decoding it gives the 20-byte digest and not the payload, which is the fourth segment. -/
theorem SignWithData_third_segment :
    (splitColon (exampleAuth.SignWithData (str "hello")))[2]? =
        some (str "NDN8cM0rwosxhHJ6QAcI7ialr0g=") ∧
      ((splitColon (exampleAuth.SignWithData (str "hello")))[2]?).bind base64.DecodeString =
        some (HMAC_SHA1 exampleAuth.SecretKey (str "hello")) ∧
      ((splitColon (exampleAuth.SignWithData (str "hello")))[2]?).bind base64.DecodeString ≠
        some (str "hello") ∧
      ((splitColon (exampleAuth.SignWithData (str "hello")))[3]?).bind base64.DecodeString =
        some (str "hello") := by
  have hs : exampleAuth.SecretKey = str "sk" := rfl
  rw [SignWithData_hello, hs, HMAC_SHA1_hello]
  decide

/-! ## The examples of the specification -/

/-- The two V1 examples: `/foo` without query and body gives `/foo` and a newline; `/foo`
with query `a=1`, the form-encoded type and body `bar` gives `/foo?a=1`, a newline and
`bar`. -/
theorem SignRequest_canonical_bytes_witness :
    SignRequest.data reqFoo = .ok (str "/foo\n") ∧
      SignRequest.data reqFooForm = .ok (str "/foo?a=1\nbar") ∧
      exampleAuth.SignRequest reqFooForm = (exampleAuth.Sign (str "/foo?a=1\nbar"), none) := by
  have h1 := SignRequest_canonical_bytes exampleAuth reqFoo (by intro e h; cases h)
  have h2 := SignRequest_canonical_bytes exampleAuth reqFooForm (by intro e h; cases h)
  have e1 : canonicalV1 reqFoo.URL.Path reqFoo.URL.RawQuery
      (includedV1 (reqFoo.Header.Get (str "Content-Type")) reqFoo.bodyBytes) =
      str "/foo\n" := by decide
  have e2 : canonicalV1 reqFooForm.URL.Path reqFooForm.URL.RawQuery
      (includedV1 (reqFooForm.Header.Get (str "Content-Type")) reqFooForm.bodyBytes) =
      str "/foo?a=1\nbar" := by decide
  rw [e1] at h1
  rw [e2] at h2
  exact ⟨h1.1, h2.1, h2.2⟩

/-- The V2 example: `GET /foo` to host `x.com` without content type gives the request
line, the `Host` line and a blank line. -/
theorem SignRequestV2_canonical_bytes_witness :
    SignRequestV2.data reqFoo = .ok (str "GET /foo\nHost: x.com\n\n") ∧
      SignRequestV2.data reqFooForm =
        .ok (str "POST /foo?a=1\nHost: x.com\nContent-Type: application/x-www-form-urlencoded\n\nbar") := by
  have h1 := SignRequestV2_canonical_bytes exampleAuth reqFoo (by intro e h; cases h)
  have h2 := SignRequestV2_canonical_bytes exampleAuth reqFooForm (by intro e h; cases h)
  have e1 : canonicalV2 reqFoo.Method reqFoo.URL.Path reqFoo.URL.RawQuery reqFoo.Host
      (reqFoo.Header.Get (str "Content-Type"))
      (includedV2 (reqFoo.Header.Get (str "Content-Type")) reqFoo.bodyBytes) =
      str "GET /foo\nHost: x.com\n\n" := by decide
  have e2 : canonicalV2 reqFooForm.Method reqFooForm.URL.Path reqFooForm.URL.RawQuery
      reqFooForm.Host (reqFooForm.Header.Get (str "Content-Type"))
      (includedV2 (reqFooForm.Header.Get (str "Content-Type")) reqFooForm.bodyBytes) =
      str "POST /foo?a=1\nHost: x.com\nContent-Type: application/x-www-form-urlencoded\n\nbar" := by
    decide
  rw [e1] at h1
  rw [e2] at h2
  exact ⟨h1.1, h2.1⟩

set_option maxRecDepth 100000 in
theorem SignRequest_callback :
    exampleAuth.SignRequest reqCallback = (str "ak:QzsW24mtoDEGJRO2Bs7i5Kw36JI=", none) := by
  decide

/-- A callback carrying `QBox ` and the V1 token of its own request is accepted. -/
theorem VerifyCallback_true_iff_witness :
    exampleAuth.VerifyCallback reqCallback = (true, none) :=
  (VerifyCallback_true_iff exampleAuth reqCallback).2
    ⟨str "ak:QzsW24mtoDEGJRO2Bs7i5Kw36JI=", SignRequest_callback, by decide⟩

/-- A form-encoded callback without `Authorization` header is rejected without an error,
though its body cannot be read. -/
theorem VerifyCallback_no_authorization_witness :
    reqBroken.Header.lookup (str "Authorization") = none ∧
      incBody reqBroken = true ∧ seekable.New reqBroken = .error errEOF ∧
      exampleAuth.VerifyCallback reqBroken = (false, none) :=
  ⟨by decide, by decide, rfl,
    VerifyCallback_no_authorization exampleAuth reqBroken (Or.inl (by decide))⟩

/-- A form-encoded callback with an `Authorization` header and an unreadable body gets the
error of the body, with `false`. -/
theorem VerifyCallback_error_witness :
    reqBrokenAuth.Header.Get (str "Authorization") ≠ [] ∧
      (exampleAuth.SignRequest reqBrokenAuth).2 = some errEOF ∧
      exampleAuth.VerifyCallback reqBrokenAuth = (false, some errEOF) :=
  ⟨by decide, by decide,
    (VerifyCallback_error exampleAuth reqBrokenAuth (by decide)).2.1 errEOF (by decide)⟩

/-- The JSON body is appended to the V2 canonical bytes, the `multipart/form-data` body is
not. -/
theorem SignRequestV2_body_rule_witness :
    reqJson.Body.isSome = true ∧ reqMultipart.Body.isSome = true ∧
      (∃ d, SignRequestV2.data { reqJson with Body := none } = .ok d ∧
        SignRequestV2.data reqJson = .ok (d ++ [123, 125]) ∧ [123, 125] <:+ d ++ [123, 125]) ∧
      SignRequestV2.data reqMultipart = SignRequestV2.data { reqMultipart with Body := none } ∧
      exampleAuth.SignRequestV2 reqMultipart =
        exampleAuth.SignRequestV2 { reqMultipart with Body := none } :=
  ⟨rfl, rfl,
    (SignRequestV2_body_rule exampleAuth reqJson rfl).1 [123, 125] (by decide) rfl,
    ((SignRequestV2_body_rule exampleAuth reqMultipart rfl).2.1 (by decide) (by decide)).1,
    ((SignRequestV2_body_rule exampleAuth reqMultipart rfl).2.1 (by decide) (by decide)).2⟩

/-- A form-encoded request with an unreadable body makes both signers return the error
and the empty token; the request without body is signed. -/
theorem SignRequest_error_iff_witness :
    exampleAuth.SignRequest reqBroken = ([], some errEOF) ∧
      exampleAuth.SignRequestV2 reqBroken = ([], some errEOF) ∧
      (exampleAuth.SignRequest reqFoo).2 = none := by
  have h := SignRequest_error_iff exampleAuth reqBroken
  have h1 : (exampleAuth.SignRequest reqBroken).2 = some errEOF :=
    (h.1 errEOF).2 ⟨by decide, rfl⟩
  have h2 : (exampleAuth.SignRequestV2 reqBroken).2 = some errEOF :=
    (h.2.1 errEOF).2 ⟨by decide, rfl⟩
  have t1 := h.2.2.1 (by rw [h1]; simp)
  have t2 := h.2.2.2.1 (by rw [h2]; simp)
  exact ⟨Prod.ext t1 h1, Prod.ext t2 h2,
    (SignRequest_error_iff exampleAuth reqFoo).2.2.2.2.1 (by decide)⟩

/-! ## The base64 encoding -/

theorem shl_lor (a b k : Nat) (h : b < 2 ^ k) : a <<< k ||| b = a * 2 ^ k + b := by
  rw [Nat.shiftLeft_eq, Nat.mul_comm, ← Nat.mul_add_lt_is_or h]

theorem mul_lor (a b k : Nat) (h : b < 2 ^ k) : (2 ^ k * a) ||| b = 2 ^ k * a + b :=
  (Nat.mul_add_lt_is_or h a).symm

theorem and_63 (x : Nat) : x &&& 0x3F = x % 64 :=
  Nat.and_pow_two_sub_one_eq_mod x 6

theorem group2_val (a b : Nat) (hb : b < 256) :
    a <<< 16 ||| b <<< 8 = a * 65536 + b * 256 := by
  have h1 : b <<< 8 = b * 256 := by rw [Nat.shiftLeft_eq]
  rw [h1, shl_lor a (b * 256) 16 (by omega)]
  norm_num

/-- The 24-bit value of a group of three bytes. -/
theorem group3_val (a b c : Nat) (hb : b < 256) (hc : c < 256) :
    a <<< 16 ||| b <<< 8 ||| c = a * 65536 + b * 256 + c := by
  rw [group2_val a b hb]
  have h3 : a * 65536 + b * 256 = 2 ^ 8 * (a * 256 + b) := by omega
  rw [h3, mul_lor _ c 8 (by omega)]

theorem sextet2_val (d0 d1 : Nat) (h1 : d1 < 64) :
    d0 <<< 18 ||| d1 <<< 12 = d0 * 262144 + d1 * 4096 := by
  have e1 : d1 <<< 12 = d1 * 4096 := by rw [Nat.shiftLeft_eq]
  rw [e1, shl_lor d0 (d1 * 4096) 18 (by omega)]
  norm_num

theorem sextet3_val (d0 d1 d2 : Nat) (h1 : d1 < 64) (h2 : d2 < 64) :
    d0 <<< 18 ||| d1 <<< 12 ||| d2 <<< 6 = d0 * 262144 + d1 * 4096 + d2 * 64 := by
  have e2 : d2 <<< 6 = d2 * 64 := by rw [Nat.shiftLeft_eq]
  rw [sextet2_val d0 d1 h1, e2]
  have : d0 * 262144 + d1 * 4096 = 2 ^ 12 * (d0 * 64 + d1) := by omega
  rw [this, mul_lor _ (d2 * 64) 12 (by omega)]

/-- The 24-bit value of four 6-bit values. -/
theorem sextet4_val (d0 d1 d2 d3 : Nat) (h1 : d1 < 64) (h2 : d2 < 64) (h3 : d3 < 64) :
    d0 <<< 18 ||| d1 <<< 12 ||| d2 <<< 6 ||| d3 =
      d0 * 262144 + d1 * 4096 + d2 * 64 + d3 := by
  rw [sextet3_val d0 d1 d2 h1 h2]
  have : d0 * 262144 + d1 * 4096 + d2 * 64 = 2 ^ 6 * (d0 * 4096 + d1 * 64 + d2) := by omega
  rw [this, mul_lor _ d3 6 (by omega)]

theorem base64_decode_encode (v : Nat) (h : v < 64) :
    base64.decode (base64.encode v) = some v := by
  have key : ∀ w : Fin 64, base64.decode (base64.encode w.val) = some w.val := by decide
  exact key ⟨v, h⟩

theorem base64_encode_ne_pad (v : Nat) (h : v < 64) :
    base64.encode v ≠ base64.StdPadding := by
  have key : ∀ w : Fin 64, base64.encode w.val ≠ base64.StdPadding := by decide
  exact key ⟨v, h⟩

theorem sextet_lt (x : Nat) : x &&& 0x3F < 64 := by
  rw [and_63]
  omega

theorem ofNat_byte (x : Nat) (a : Byte) (h : x % 256 = a.val) : (Fin.ofNat x : Byte) = a := by
  apply Fin.ext
  simpa [Fin.ofNat] using h

/-- Decoding the four characters of a full group gives back its 24-bit value. -/
theorem regroup4 (V : Nat) (hV : V < 16777216) :
    (V >>> 18 &&& 0x3F) <<< 18 ||| (V >>> 12 &&& 0x3F) <<< 12 ||| (V >>> 6 &&& 0x3F) <<< 6 |||
      (V &&& 0x3F) = V := by
  rw [sextet4_val _ _ _ _ (sextet_lt _) (sextet_lt _) (sextet_lt _)]
  simp only [and_63, Nat.shiftRight_eq_div_pow]
  omega

theorem regroup3 (V : Nat) (hV : V < 16777216) (h0 : V % 64 = 0) :
    (V >>> 18 &&& 0x3F) <<< 18 ||| (V >>> 12 &&& 0x3F) <<< 12 ||| (V >>> 6 &&& 0x3F) <<< 6 =
      V := by
  rw [sextet3_val _ _ _ (sextet_lt _) (sextet_lt _)]
  simp only [and_63, Nat.shiftRight_eq_div_pow]
  omega

theorem regroup2 (V : Nat) (hV : V < 16777216) (h0 : V % 4096 = 0) :
    (V >>> 18 &&& 0x3F) <<< 18 ||| (V >>> 12 &&& 0x3F) <<< 12 = V := by
  rw [sextet2_val _ _ (sextet_lt _)]
  simp only [and_63, Nat.shiftRight_eq_div_pow]
  omega

theorem DecodeString_group (c0 c1 c2 c3 : Byte) (rest tail : Bytes) (d0 d1 d2 d3 : Nat)
    (h0 : base64.decode c0 = some d0) (h1 : base64.decode c1 = some d1)
    (h2 : base64.decode c2 = some d2) (h3 : base64.decode c3 = some d3)
    (p2 : c2 ≠ base64.StdPadding) (p3 : c3 ≠ base64.StdPadding)
    (ht : base64.DecodeString rest = some tail) :
    base64.DecodeString (c0 :: c1 :: c2 :: c3 :: rest) =
      some (Fin.ofNat ((d0 <<< 18 ||| d1 <<< 12 ||| d2 <<< 6 ||| d3) >>> 16) ::
        Fin.ofNat ((d0 <<< 18 ||| d1 <<< 12 ||| d2 <<< 6 ||| d3) >>> 8) ::
        Fin.ofNat (d0 <<< 18 ||| d1 <<< 12 ||| d2 <<< 6 ||| d3) :: tail) := by
  rw [base64.DecodeString]
  simp only [h0, h1, h2, h3, p2, p3, ht, if_false]

theorem DecodeString_rest2 (c0 c1 c2 : Byte) (d0 d1 d2 : Nat)
    (h0 : base64.decode c0 = some d0) (h1 : base64.decode c1 = some d1)
    (h2 : base64.decode c2 = some d2) (p2 : c2 ≠ base64.StdPadding) :
    base64.DecodeString [c0, c1, c2, base64.StdPadding] =
      some [Fin.ofNat ((d0 <<< 18 ||| d1 <<< 12 ||| d2 <<< 6) >>> 16),
        Fin.ofNat ((d0 <<< 18 ||| d1 <<< 12 ||| d2 <<< 6) >>> 8)] := by
  rw [base64.DecodeString]
  simp only [h0, h1, h2, p2, if_false, if_true]

theorem DecodeString_rest1 (c0 c1 : Byte) (d0 d1 : Nat)
    (h0 : base64.decode c0 = some d0) (h1 : base64.decode c1 = some d1) :
    base64.DecodeString [c0, c1, base64.StdPadding, base64.StdPadding] =
      some [Fin.ofNat ((d0 <<< 18 ||| d1 <<< 12) >>> 16)] := by
  rw [base64.DecodeString]
  simp only [h0, h1, if_true, and_self]

/-- Round trip of the URL-safe base64 encoding: decoding the encoding of `b` gives `b`. -/
theorem DecodeString_EncodeToString (b : Bytes) :
    base64.DecodeString (base64.EncodeToString b) = some b := by
  induction b using base64.EncodeToString.induct with
  | case1 s0 s1 s2 rest ih =>
    rw [base64.EncodeToString]
    have hV := group3_val s0.val s1.val s2.val s1.isLt s2.isLt
    have hlt : s0.val <<< 16 ||| s1.val <<< 8 ||| s2.val < 16777216 := by
      rw [hV]
      have := s0.isLt
      have := s1.isLt
      have := s2.isLt
      omega
    rw [DecodeString_group _ _ _ _ _ rest _ _ _ _
      (base64_decode_encode _ (sextet_lt _)) (base64_decode_encode _ (sextet_lt _))
      (base64_decode_encode _ (sextet_lt _)) (base64_decode_encode _ (sextet_lt _))
      (base64_encode_ne_pad _ (sextet_lt _)) (base64_encode_ne_pad _ (sextet_lt _)) ih]
    rw [regroup4 _ hlt, hV]
    have e0 : (Fin.ofNat ((s0.val * 65536 + s1.val * 256 + s2.val) >>> 16) : Byte) = s0 := by
      apply ofNat_byte
      rw [Nat.shiftRight_eq_div_pow]
      have := s0.isLt
      have := s1.isLt
      have := s2.isLt
      omega
    have e1 : (Fin.ofNat ((s0.val * 65536 + s1.val * 256 + s2.val) >>> 8) : Byte) = s1 := by
      apply ofNat_byte
      rw [Nat.shiftRight_eq_div_pow]
      have := s0.isLt
      have := s1.isLt
      have := s2.isLt
      omega
    have e2 : (Fin.ofNat (s0.val * 65536 + s1.val * 256 + s2.val) : Byte) = s2 := by
      apply ofNat_byte
      have := s0.isLt
      have := s1.isLt
      have := s2.isLt
      omega
    rw [e0, e1, e2]
  | case2 s0 s1 =>
    rw [base64.EncodeToString]
    have hV := group2_val s0.val s1.val s1.isLt
    have hlt : s0.val <<< 16 ||| s1.val <<< 8 < 16777216 := by
      rw [hV]
      have := s0.isLt
      have := s1.isLt
      omega
    have h64 : (s0.val <<< 16 ||| s1.val <<< 8) % 64 = 0 := by
      rw [hV]
      omega
    rw [DecodeString_rest2 _ _ _ _ _ _
      (base64_decode_encode _ (sextet_lt _)) (base64_decode_encode _ (sextet_lt _))
      (base64_decode_encode _ (sextet_lt _)) (base64_encode_ne_pad _ (sextet_lt _))]
    rw [regroup3 _ hlt h64, hV]
    have e0 : (Fin.ofNat ((s0.val * 65536 + s1.val * 256) >>> 16) : Byte) = s0 := by
      apply ofNat_byte
      rw [Nat.shiftRight_eq_div_pow]
      have := s0.isLt
      have := s1.isLt
      omega
    have e1 : (Fin.ofNat ((s0.val * 65536 + s1.val * 256) >>> 8) : Byte) = s1 := by
      apply ofNat_byte
      rw [Nat.shiftRight_eq_div_pow]
      have := s0.isLt
      have := s1.isLt
      omega
    rw [e0, e1]
  | case3 s0 =>
    rw [base64.EncodeToString]
    have hV : s0.val <<< 16 = s0.val * 65536 := by rw [Nat.shiftLeft_eq]
    have hlt : s0.val <<< 16 < 16777216 := by
      rw [hV]
      have := s0.isLt
      omega
    have h4096 : (s0.val <<< 16) % 4096 = 0 := by
      rw [hV]
      omega
    rw [DecodeString_rest1 _ _ _ _
      (base64_decode_encode _ (sextet_lt _)) (base64_decode_encode _ (sextet_lt _))]
    rw [regroup2 _ hlt h4096, hV]
    have e0 : (Fin.ofNat ((s0.val * 65536) >>> 16) : Byte) = s0 := by
      apply ofNat_byte
      rw [Nat.shiftRight_eq_div_pow]
      have := s0.isLt
      omega
    rw [e0]
  | case4 =>
    rw [base64.EncodeToString, base64.DecodeString]

/-- The encoding is injective. -/
theorem EncodeToString_injective (a b : Bytes)
    (h : base64.EncodeToString a = base64.EncodeToString b) : a = b := by
  have ha := DecodeString_EncodeToString a
  rw [h, DecodeString_EncodeToString b] at ha
  exact (Option.some.inj ha).symm

theorem base64_encode_safe (v : Nat) (h : v < 64) : isURLSafe (base64.encode v) = true := by
  have key : ∀ w : Fin 64, isURLSafe (base64.encode w.val) = true := by decide
  exact key ⟨v, h⟩

theorem isURLSafe_excludes (c : Byte) (h : isURLSafe c = true) :
    c ≠ 43 ∧ c ≠ 47 ∧ c ≠ 58 ∧ c ≠ 61 := by
  refine ⟨?_, ?_, ?_, ?_⟩ <;>
    · rintro rfl
      revert h
      decide

/-- The encoding of a sequence of `3 * k + 2` bytes: `4 * k + 3` characters of the URL-safe
alphabet and one padding character. -/
theorem EncodeToString_rest2 (b : Bytes) (h : b.length % 3 = 2) :
    ∃ body, base64.EncodeToString b = body ++ [base64.StdPadding] ∧
      body.length = 4 * (b.length / 3) + 3 ∧ ∀ c ∈ body, isURLSafe c = true := by
  induction b using base64.EncodeToString.induct with
  | case1 s0 s1 s2 rest ih =>
    have hr : rest.length % 3 = 2 := by
      simp only [List.length_cons] at h
      omega
    obtain ⟨body, he, hl, hs⟩ := ih hr
    rw [base64.EncodeToString, he]
    refine ⟨_ :: _ :: _ :: _ :: body, rfl, ?_, ?_⟩
    · simp only [List.length_cons, hl]
      omega
    · intro c hc
      simp only [List.mem_cons] at hc
      rcases hc with hc | hc | hc | hc | hc
      · rw [hc]; exact base64_encode_safe _ (sextet_lt _)
      · rw [hc]; exact base64_encode_safe _ (sextet_lt _)
      · rw [hc]; exact base64_encode_safe _ (sextet_lt _)
      · rw [hc]; exact base64_encode_safe _ (sextet_lt _)
      · exact hs c hc
  | case2 s0 s1 =>
    rw [base64.EncodeToString]
    refine ⟨[_, _, _], rfl, by simp, ?_⟩
    intro c hc
    simp only [List.mem_cons, List.mem_singleton, List.not_mem_nil, or_false] at hc
    rcases hc with hc | hc | hc
    · rw [hc]; exact base64_encode_safe _ (sextet_lt _)
    · rw [hc]; exact base64_encode_safe _ (sextet_lt _)
    · rw [hc]; exact base64_encode_safe _ (sextet_lt _)
  | case3 s0 => simp at h
  | case4 => simp at h

/-- The signature part of a token: 27 characters of the alphabet and the padding. -/
theorem signature_shape (key data : Bytes) :
    ∃ body, base64.EncodeToString (HMAC_SHA1 key data) = body ++ [base64.StdPadding] ∧
      body.length = 27 ∧ ∀ c ∈ body, isURLSafe c = true := by
  have hl := HMAC_SHA1_length key data
  obtain ⟨body, he, hb, hs⟩ := EncodeToString_rest2 (HMAC_SHA1 key data) (by rw [hl])
  refine ⟨body, he, ?_, hs⟩
  rw [hb, hl]

theorem signature_length (key data : Bytes) :
    (base64.EncodeToString (HMAC_SHA1 key data)).length = 28 := by
  obtain ⟨body, he, hb, _⟩ := signature_shape key data
  rw [he, List.length_append, hb]
  rfl

/-- Claim C19: for every credential and every data, the token of `Sign` is the access
key, a colon and a signature of exactly 28 characters, of which the first 27 are from the
URL-safe base64 alphabet (never `+`, `/` or `:`) and the last is the padding `=`; the
token has `len(AccessKey) + 29` bytes, whatever the lengths of data and secret key. -/
theorem Sign_signature_shape (ath : Authorization) (data : Bytes) :
    ∃ sig, ath.Sign data = ath.AccessKey ++ str ":" ++ sig ∧ sig.length = 28 ∧
      (∀ c ∈ sig.take 27, isURLSafe c = true ∧ c ≠ 43 ∧ c ≠ 47 ∧ c ≠ 58) ∧
      sig.drop 27 = [61] ∧
      (ath.Sign data).length = ath.AccessKey.length + 29 := by
  obtain ⟨body, he, hb, hs⟩ := signature_shape ath.SecretKey data
  refine ⟨base64.EncodeToString (HMAC_SHA1 ath.SecretKey data), Sign_eq ath data,
    signature_length _ _, ?_, ?_, ?_⟩
  · intro c hc
    rw [he, List.take_left' hb] at hc
    have h := isURLSafe_excludes c (hs c hc)
    exact ⟨hs c hc, h.1, h.2.1, h.2.2.1⟩
  · rw [he, List.drop_left' hb]
    rfl
  · rw [Sign_eq, List.length_append, List.length_append, signature_length]
    have hc : (str ":").length = 1 := by decide
    rw [hc]

/-! ## Tokens of two credentials -/

theorem keyBlock_zero_key : keyBlock [0] = keyBlock [] := by
  decide

theorem HMAC_SHA1_of_keyBlock (k1 k2 data : Bytes) (h : keyBlock k1 = keyBlock k2) :
    HMAC_SHA1 k1 data = HMAC_SHA1 k2 data := by
  unfold HMAC_SHA1
  rw [h]

theorem Sign_eq_iff (a1 a2 : Authorization) (d1 d2 : Bytes) :
    a1.Sign d1 = a2.Sign d2 ↔
      a1.AccessKey = a2.AccessKey ∧
        HMAC_SHA1 a1.SecretKey d1 = HMAC_SHA1 a2.SecretKey d2 := by
  rw [Sign_eq, Sign_eq]
  constructor
  · intro h
    have hl : (base64.EncodeToString (HMAC_SHA1 a1.SecretKey d1)).length =
        (base64.EncodeToString (HMAC_SHA1 a2.SecretKey d2)).length := by
      rw [signature_length, signature_length]
    obtain ⟨h1, h2⟩ := List.append_inj' h hl
    exact ⟨List.append_cancel_right h1, EncodeToString_injective _ _ h2⟩
  · rintro ⟨h1, h2⟩
    rw [h1, h2]

/-- Claim C11 as stated fails: the credentials with access key `ak` and the secret keys
`[]` and `[0]` differ, yet they sign the empty data with the same token. -/
theorem Sign_not_injective :
    ¬ (authEmptyKey.Sign [] = authZeroKey.Sign [] ↔
      authEmptyKey = authZeroKey ∧ ([] : Bytes) = []) := by
  intro h
  have ht : authEmptyKey.Sign [] = authZeroKey.Sign [] :=
    (Sign_eq_iff _ _ _ _).2 ⟨rfl, (HMAC_SHA1_of_keyBlock _ _ _ keyBlock_zero_key).symm⟩
  have hne : authEmptyKey ≠ authZeroKey := by decide
  exact hne (h.1 ht).1

/-- Claim C11, amended: the tokens `Sign(c1, d1)` and `Sign(c2, d2)` are byte-identical
whenever `c1 = c2` and `d1 = d2`, and they are byte-identical exactly when the access keys
are equal and the HMAC-SHA1 digests of `d1` under the first secret key and of `d2` under
the second are equal. -/
theorem Sign_identical_iff (c1 c2 : Authorization) (d1 d2 : Bytes) :
    (c1 = c2 ∧ d1 = d2 → c1.Sign d1 = c2.Sign d2) ∧
      (c1.Sign d1 = c2.Sign d2 ↔
        c1.AccessKey = c2.AccessKey ∧
          HMAC_SHA1 c1.SecretKey d1 = HMAC_SHA1 c2.SecretKey d2) := by
  refine ⟨?_, Sign_eq_iff c1 c2 d1 d2⟩
  rintro ⟨h1, h2⟩
  rw [h1, h2]

/-- Equal credentials and data give the same token, and so do the secret keys `[]` and
`[0]`, whose digests coincide. -/
theorem Sign_identical_iff_witness :
    exampleAuth.Sign (str "hello") = exampleAuth.Sign (str "hello") ∧
      authEmptyKey.Sign (str "hello") = authZeroKey.Sign (str "hello") :=
  ⟨(Sign_identical_iff exampleAuth exampleAuth (str "hello") (str "hello")).1 ⟨rfl, rfl⟩,
    (Sign_identical_iff authEmptyKey authZeroKey (str "hello") (str "hello")).2.2
      ⟨rfl, (HMAC_SHA1_of_keyBlock _ _ _ keyBlock_zero_key).symm⟩⟩

/-! ## What the V2 canonical bytes bind -/

theorem append_cons_inj_of_not_mem (n : Byte) (a b x y : Bytes) (ha : n ∉ a) (hb : n ∉ b)
    (h : a ++ n :: x = b ++ n :: y) : a = b ∧ x = y := by
  induction a generalizing b with
  | nil =>
    cases b with
    | nil => simpa using h
    | cons c cs =>
      simp only [List.nil_append, List.cons_append, List.cons.injEq] at h
      exact absurd (by rw [h.1]; exact List.mem_cons_self _ _) hb
  | cons c cs ih =>
    cases b with
    | nil =>
      simp only [List.nil_append, List.cons_append, List.cons.injEq] at h
      exact absurd (by rw [← h.1]; exact List.mem_cons_self _ _) ha
    | cons e es =>
      simp only [List.cons_append, List.cons.injEq] at h
      have hcs : n ∉ cs := fun hm => ha (List.mem_cons_of_mem _ hm)
      have hes : n ∉ es := fun hm => hb (List.mem_cons_of_mem _ hm)
      obtain ⟨h1, h2⟩ := ih es hcs hes h.2
      exact ⟨by rw [h.1, h1], h2⟩

theorem Request_bodyBytes_congr (r1 r2 : Request) (h : r1.Body = r2.Body) :
    r1.bodyBytes = r2.bodyBytes := by
  unfold Request.bodyBytes
  rw [h]

theorem SignRequestV2_data_ok (req : Request) (d : Bytes)
    (h : SignRequestV2.data req = .ok d) :
    d = canonicalV2 req.Method req.URL.Path req.URL.RawQuery req.Host
      (req.Header.Get (str "Content-Type"))
      (includedV2 (req.Header.Get (str "Content-Type")) req.bodyBytes) := by
  have hu : ∀ e, req.Body = some (Body.unreadable e) →
      req.Header.Get (str "Content-Type") ≠ conf.CONTENT_TYPE_FORM ∧
        req.Header.Get (str "Content-Type") ≠ conf.CONTENT_TYPE_JSON := by
    intro e he
    by_contra hc
    have hi : incBodyV2 req = true := by
      rw [incBodyV2_eq_true_iff]
      refine ⟨by rw [he]; rfl, ?_⟩
      by_contra hn
      exact hc ⟨fun h1 => hn (Or.inl h1), fun h2 => hn (Or.inr h2)⟩
    have := (SignRequestV2_data_error_iff req e).2 ⟨hi, he⟩
    rw [this] at h
    cases h
  have h2 := SignRequestV2_data_included req hu
  rw [h2] at h
  exact (Except.ok.inj h).symm

theorem SignRequest_data_ok (req : Request) (d : Bytes)
    (h : SignRequest.data req = .ok d) :
    d = canonicalV1 req.URL.Path req.URL.RawQuery
      (includedV1 (req.Header.Get (str "Content-Type")) req.bodyBytes) := by
  have hu : ∀ e, req.Body = some (Body.unreadable e) →
      req.Header.Get (str "Content-Type") ≠ conf.CONTENT_TYPE_FORM := by
    intro e he hc
    have hi : incBody req = true := by
      rw [incBody_eq_true_iff]
      exact ⟨by rw [he]; rfl, hc⟩
    have := (SignRequest_data_error_iff req e).2 ⟨hi, he⟩
    rw [this] at h
    cases h
  have h2 := SignRequest_data_included req hu
  rw [h2] at h
  exact (Except.ok.inj h).symm

/-- The V2 canonical bytes as request line, `Host` prefix, host and the rest. -/
theorem canonicalV2_split (method path rawQuery host contentType : Bytes)
    (body : Option Bytes) :
    canonicalV2 method path rawQuery host contentType body =
      method ++ 32 :: (path ++ (if rawQuery = [] then [] else str "?" ++ rawQuery) ++
        str "\nHost: ") ++ host ++
        ((if contentType = [] then [] else str "\nContent-Type: " ++ contentType) ++
          str "\n\n" ++ (match body with | some b => b | none => [])) := by
  have hs : str " " = [32] := by decide
  unfold canonicalV2
  rw [hs]
  simp only [List.append_assoc, List.singleton_append, List.cons_append, List.nil_append]

theorem canonicalV2_method_host_inj (m1 m2 path rawQuery h1 h2 contentType : Bytes)
    (body : Option Bytes)
    (hs : m1 = m2 ∨ h1 = h2 ∨ ((32 : Byte) ∉ m1 ∧ (32 : Byte) ∉ m2))
    (h : canonicalV2 m1 path rawQuery h1 contentType body =
      canonicalV2 m2 path rawQuery h2 contentType body) : m1 = m2 ∧ h1 = h2 := by
  rw [canonicalV2_split, canonicalV2_split] at h
  have hm : m1 = m2 := by
    rcases hs with hs | hs | hs
    · exact hs
    · rw [hs] at h
      have h3 := List.append_cancel_right h
      have h4 := List.append_cancel_right h3
      exact List.append_cancel_right h4
    · simp only [List.append_assoc, List.cons_append] at h
      exact (append_cons_inj_of_not_mem 32 m1 m2 _ _ hs.1 hs.2 h).1
  refine ⟨hm, ?_⟩
  rw [hm] at h
  have h3 := List.append_cancel_right h
  exact List.append_cancel_left h3

/-- Claim C12 as stated fails: the requests `reqSplitHost` and `reqSplitMethod` agree on
path, query, content type and body and differ in method and in host, yet both have the V2
canonical bytes `GET /a`, `Host: x /a`, `Host: y` and a blank line. -/
theorem SignRequestV2_method_host_collision :
    reqSplitHost.URL = reqSplitMethod.URL ∧
      reqSplitHost.Header.Get (str "Content-Type") =
        reqSplitMethod.Header.Get (str "Content-Type") ∧
      reqSplitHost.Body = reqSplitMethod.Body ∧
      reqSplitHost.Method ≠ reqSplitMethod.Method ∧
      reqSplitHost.Host ≠ reqSplitMethod.Host ∧
      SignRequestV2.data reqSplitHost = .ok (str "GET /a\nHost: x /a\nHost: y\n\n") ∧
      SignRequestV2.data reqSplitMethod = .ok (str "GET /a\nHost: x /a\nHost: y\n\n") := by
  refine ⟨rfl, rfl, rfl, by decide, by decide, ?_, ?_⟩
  · rw [SignRequestV2_data_included reqSplitHost (by intro e h; cases h)]
    exact congrArg Except.ok (by decide)
  · rw [SignRequestV2_data_included reqSplitMethod (by intro e h; cases h)]
    exact congrArg Except.ok (by decide)

/-- Claim C12, amended: two requests that agree on path, raw query, `Content-Type` header
and body and differ in method or in host have different V2 canonical bytes, provided they
differ in only one of the two or neither method contains a space. -/
theorem SignRequestV2_binds_method_host (r1 r2 : Request) (d1 d2 : Bytes)
    (hu : r1.URL = r2.URL)
    (hc : r1.Header.Get (str "Content-Type") = r2.Header.Get (str "Content-Type"))
    (hb : r1.Body = r2.Body)
    (hd : r1.Method ≠ r2.Method ∨ r1.Host ≠ r2.Host)
    (hs : r1.Method = r2.Method ∨ r1.Host = r2.Host ∨
      ((32 : Byte) ∉ r1.Method ∧ (32 : Byte) ∉ r2.Method))
    (h1 : SignRequestV2.data r1 = .ok d1) (h2 : SignRequestV2.data r2 = .ok d2) :
    d1 ≠ d2 := by
  intro heq
  have e1 := SignRequestV2_data_ok r1 d1 h1
  have e2 := SignRequestV2_data_ok r2 d2 h2
  rw [hu, hc, Request_bodyBytes_congr r1 r2 hb] at e1
  rw [heq, e2] at e1
  obtain ⟨hm, hh⟩ := canonicalV2_method_host_inj _ _ _ _ _ _ _ _ hs e1.symm
  rcases hd with hd | hd
  · exact hd hm
  · exact hd hh

/-- The requests `GET /foo` to `x.com` and `DELETE /foo` to `y.org` have different V2
canonical bytes. -/
theorem SignRequestV2_binds_method_host_witness :
    SignRequestV2.data reqFoo = .ok (str "GET /foo\nHost: x.com\n\n") ∧
      SignRequestV2.data reqFooDelete = .ok (str "DELETE /foo\nHost: y.org\n\n") ∧
      str "GET /foo\nHost: x.com\n\n" ≠ str "DELETE /foo\nHost: y.org\n\n" := by
  have h1 : SignRequestV2.data reqFoo = .ok (str "GET /foo\nHost: x.com\n\n") := by
    rw [SignRequestV2_data_included reqFoo (by intro e h; cases h)]
    exact congrArg Except.ok (by decide)
  have h2 : SignRequestV2.data reqFooDelete = .ok (str "DELETE /foo\nHost: y.org\n\n") := by
    rw [SignRequestV2_data_included reqFooDelete (by intro e h; cases h)]
    exact congrArg Except.ok (by decide)
  exact ⟨h1, h2, SignRequestV2_binds_method_host reqFoo reqFooDelete _ _ rfl rfl rfl
    (Or.inl (by decide)) (Or.inr (Or.inr ⟨by decide, by decide⟩)) h1 h2⟩

theorem canonicalV2_contentType_inj (method path rawQuery host c1 c2 : Bytes)
    (b1 b2 : Option Bytes) (n1 : (10 : Byte) ∉ c1) (n2 : (10 : Byte) ∉ c2)
    (h : canonicalV2 method path rawQuery host c1 b1 =
      canonicalV2 method path rawQuery host c2 b2) : c1 = c2 := by
  rw [canonicalV2_split, canonicalV2_split] at h
  have ht := List.append_cancel_left h
  have hnn : str "\n\n" = [10, 10] := by decide
  have hct : str "\nContent-Type: " = 10 :: 67 :: str "ontent-Type: " := by decide
  rw [hnn, hct] at ht
  by_cases e1 : c1 = [] <;> by_cases e2 : c2 = []
  · rw [e1, e2]
  · simp [e1, e2] at ht
  · simp [e1, e2] at ht
  · simp only [e1, e2, if_false, List.append_assoc, List.cons_append, List.nil_append,
      List.cons.injEq, true_and] at ht
    have h3 := List.append_cancel_left ht
    exact (append_cons_inj_of_not_mem 10 c1 c2 _ _ n1 n2 h3).1

/-- Claim C13 as stated fails: the requests `reqFormBlank` and `reqTypeBlank` agree on
method, path, query, host and body and differ in the `Content-Type` header, yet both have
the same V2 canonical bytes: the body `x` and a blank line of the first is the end of the
content type of the second. -/
theorem SignRequestV2_contentType_collision :
    reqFormBlank.Method = reqTypeBlank.Method ∧ reqFormBlank.URL = reqTypeBlank.URL ∧
      reqFormBlank.Host = reqTypeBlank.Host ∧ reqFormBlank.Body = reqTypeBlank.Body ∧
      reqFormBlank.Header.Get (str "Content-Type") ≠
        reqTypeBlank.Header.Get (str "Content-Type") ∧
      SignRequestV2.data reqFormBlank = .ok (str
        "POST /a\nHost: x.com\nContent-Type: application/x-www-form-urlencoded\n\nx\n\n") ∧
      SignRequestV2.data reqTypeBlank = .ok (str
        "POST /a\nHost: x.com\nContent-Type: application/x-www-form-urlencoded\n\nx\n\n") := by
  refine ⟨rfl, rfl, rfl, rfl, by decide, ?_, ?_⟩
  · rw [SignRequestV2_data_included reqFormBlank (by intro e h; cases h)]
    exact congrArg Except.ok (by decide)
  · rw [SignRequestV2_data_included reqTypeBlank (by intro e h; cases h)]
    exact congrArg Except.ok (by decide)

/-- Claim C13, amended: two requests that agree on method, path, raw query, host and body
and differ in the value of the `Content-Type` header have different V2 canonical bytes,
provided neither value contains a newline. -/
theorem SignRequestV2_binds_contentType (r1 r2 : Request) (d1 d2 : Bytes)
    (hm : r1.Method = r2.Method) (hu : r1.URL = r2.URL) (hh : r1.Host = r2.Host)
    (_hb : r1.Body = r2.Body)
    (hd : r1.Header.Get (str "Content-Type") ≠ r2.Header.Get (str "Content-Type"))
    (n1 : (10 : Byte) ∉ r1.Header.Get (str "Content-Type"))
    (n2 : (10 : Byte) ∉ r2.Header.Get (str "Content-Type"))
    (h1 : SignRequestV2.data r1 = .ok d1) (h2 : SignRequestV2.data r2 = .ok d2) :
    d1 ≠ d2 := by
  intro heq
  have e1 := SignRequestV2_data_ok r1 d1 h1
  have e2 := SignRequestV2_data_ok r2 d2 h2
  rw [hm, hu, hh] at e1
  rw [heq, e2] at e1
  exact hd (canonicalV2_contentType_inj _ _ _ _ _ _ _ _ n1 n2 e1.symm)

/-- The JSON request and the `multipart/form-data` request with the same body have
different V2 canonical bytes. -/
theorem SignRequestV2_binds_contentType_witness :
    ∃ d1 d2, SignRequestV2.data reqJson = .ok d1 ∧ SignRequestV2.data reqMultipart = .ok d2 ∧
      d1 ≠ d2 := by
  have h1 := SignRequestV2_data_included reqJson (by intro e h; cases h)
  have h2 := SignRequestV2_data_included reqMultipart (by intro e h; cases h)
  exact ⟨_, _, h1, h2, SignRequestV2_binds_contentType reqJson reqMultipart _ _ rfl rfl rfl rfl
    (by decide) (by decide) (by decide) h1 h2⟩

/-! ## What the V1 token does not bind -/

theorem SignRequest_data_congr (r1 r2 : Request) (hu : r1.URL = r2.URL)
    (hc : r1.Header.Get (str "Content-Type") = r2.Header.Get (str "Content-Type"))
    (hb : r1.Body = r2.Body) : SignRequest.data r1 = SignRequest.data r2 := by
  have hi : incBody r1 = incBody r2 := by
    unfold incBody
    rw [hb, hc]
  have hs : seekable.New r1 = seekable.New r2 := by
    unfold seekable.New
    rw [hb]
  rw [SignRequest_data_eq, SignRequest_data_eq, hi, hs, hu]

/-- Claim C14: for every credential and every two requests that agree on path, raw query,
`Content-Type` header and body, `SignRequest` returns the same result, whatever their
methods and hosts are. -/
theorem SignRequest_ignores_method_host (ath : Authorization) (r1 r2 : Request)
    (hu : r1.URL = r2.URL)
    (hc : r1.Header.Get (str "Content-Type") = r2.Header.Get (str "Content-Type"))
    (hb : r1.Body = r2.Body) : ath.SignRequest r1 = ath.SignRequest r2 := by
  unfold Authorization.SignRequest
  rw [SignRequest_data_congr r1 r2 hu hc hb]

/-- The requests `GET /foo` to `x.com` and `DELETE /foo` to `y.org` get the same V1
token. -/
theorem SignRequest_ignores_method_host_witness :
    reqFoo.Method ≠ reqFooDelete.Method ∧ reqFoo.Host ≠ reqFooDelete.Host ∧
      exampleAuth.SignRequest reqFoo = exampleAuth.SignRequest reqFooDelete :=
  ⟨by decide, by decide,
    SignRequest_ignores_method_host exampleAuth reqFoo reqFooDelete rfl rfl rfl⟩

theorem SignRequest_data_excluded (req : Request)
    (h : req.Header.Get (str "Content-Type") ≠ conf.CONTENT_TYPE_FORM) :
    SignRequest.data req = .ok (canonicalV1 req.URL.Path req.URL.RawQuery none) := by
  have hi : ¬ incBody req = true := fun hi => h ((incBody_eq_true_iff req).1 hi).2
  rw [SignRequest_data_eq]
  simp [hi]

/-- Claim C17: for every credential and every request whose `Content-Type` header is not
exactly the form-encoded type, the result of `VerifyCallback` does not depend on the body:
replacing the body by any other (absent, present, unreadable) leaves the result
unchanged. -/
theorem VerifyCallback_ignores_body (ath : Authorization) (req : Request)
    (body : Option Body)
    (h : req.Header.Get (str "Content-Type") ≠ conf.CONTENT_TYPE_FORM) :
    ath.VerifyCallback { req with Body := body } = ath.VerifyCallback req := by
  have hd : SignRequest.data { req with Body := body } = SignRequest.data req := by
    rw [SignRequest_data_excluded req h, SignRequest_data_excluded { req with Body := body } h]
  unfold Authorization.VerifyCallback Authorization.SignRequest
  rw [hd]

/-- A JSON callback gets the same verdict with its body, without body and with an
unreadable body. -/
theorem VerifyCallback_ignores_body_witness :
    reqJsonCallback.Header.Get (str "Content-Type") ≠ conf.CONTENT_TYPE_FORM ∧
      exampleAuth.VerifyCallback { reqJsonCallback with Body := none } =
        exampleAuth.VerifyCallback reqJsonCallback ∧
      exampleAuth.VerifyCallback
          { reqJsonCallback with Body := some (Body.unreadable errEOF) } =
        exampleAuth.VerifyCallback reqJsonCallback :=
  ⟨by decide, VerifyCallback_ignores_body exampleAuth reqJsonCallback none (by decide),
    VerifyCallback_ignores_body exampleAuth reqJsonCallback _ (by decide)⟩

/-- Claim C18: the requests with path `/a?b` and no query and with path `/a` and query `b`
differ in path and query only, have the same V1 canonical bytes and the same V2 canonical
bytes, and get the same token from `SignRequest` and from `SignRequestV2` for every
credential. -/
theorem canonical_bytes_not_injective :
    reqQueryInPath.URL.Path ≠ reqQuerySplit.URL.Path ∧
      reqQueryInPath.URL.RawQuery ≠ reqQuerySplit.URL.RawQuery ∧
      reqQueryInPath.Method = reqQuerySplit.Method ∧
      reqQueryInPath.Host = reqQuerySplit.Host ∧
      reqQueryInPath.Header = reqQuerySplit.Header ∧
      reqQueryInPath.Body = reqQuerySplit.Body ∧
      SignRequest.data reqQueryInPath = .ok (str "/a?b\n") ∧
      SignRequest.data reqQuerySplit = .ok (str "/a?b\n") ∧
      SignRequestV2.data reqQueryInPath = .ok (str "GET /a?b\nHost: x.com\n\n") ∧
      SignRequestV2.data reqQuerySplit = .ok (str "GET /a?b\nHost: x.com\n\n") ∧
      (∀ ath : Authorization,
        ath.SignRequest reqQueryInPath = ath.SignRequest reqQuerySplit ∧
        ath.SignRequestV2 reqQueryInPath = ath.SignRequestV2 reqQuerySplit) := by
  have a1 : SignRequest.data reqQueryInPath = .ok (str "/a?b\n") := by
    rw [SignRequest_data_included reqQueryInPath (by intro e h; cases h)]
    exact congrArg Except.ok (by decide)
  have a2 : SignRequest.data reqQuerySplit = .ok (str "/a?b\n") := by
    rw [SignRequest_data_included reqQuerySplit (by intro e h; cases h)]
    exact congrArg Except.ok (by decide)
  have b1 : SignRequestV2.data reqQueryInPath = .ok (str "GET /a?b\nHost: x.com\n\n") := by
    rw [SignRequestV2_data_included reqQueryInPath (by intro e h; cases h)]
    exact congrArg Except.ok (by decide)
  have b2 : SignRequestV2.data reqQuerySplit = .ok (str "GET /a?b\nHost: x.com\n\n") := by
    rw [SignRequestV2_data_included reqQuerySplit (by intro e h; cases h)]
    exact congrArg Except.ok (by decide)
  refine ⟨by decide, by decide, rfl, rfl, rfl, rfl, a1, a2, b1, b2, ?_⟩
  intro ath
  constructor
  · unfold Authorization.SignRequest
    rw [a1, a2]
  · unfold Authorization.SignRequestV2
    rw [b1, b2]

/-! ## The secret key -/

/-- Claim C16 as stated fails: the secret key `/foo` is a contiguous part of the V1 and of
the V2 canonical bytes of the request `GET /foo`, and the secret key `a` is a contiguous
part of every token of the credential with access key `ak`. -/
theorem SecretKey_occurs :
    SignRequest.data reqFoo = .ok (str "/foo\n") ∧
      authPathKey.SecretKey <:+: str "/foo\n" ∧
      SignRequestV2.data reqFoo = .ok (str "GET /foo\nHost: x.com\n\n") ∧
      authPathKey.SecretKey <:+: str "GET /foo\nHost: x.com\n\n" ∧
      authShortKey.SecretKey <:+: authShortKey.Sign [] := by
  refine ⟨?_, ⟨[], str "\n", by decide⟩, ?_, ⟨str "GET ", str "\nHost: x.com\n\n", by decide⟩,
    ?_⟩
  · rw [SignRequest_data_included reqFoo (by intro e h; cases h)]
    exact congrArg Except.ok (by decide)
  · rw [SignRequestV2_data_included reqFoo (by intro e h; cases h)]
    exact congrArg Except.ok (by decide)
  · rw [Sign_eq]
    refine ⟨[], str "k:" ++ base64.EncodeToString (HMAC_SHA1 authShortKey.SecretKey []), ?_⟩
    have h1 : authShortKey.SecretKey = str "a" := rfl
    have h2 : authShortKey.AccessKey = str "a" ++ str "k" := by decide
    have h3 : str "k:" = str "k" ++ str ":" := by decide
    rw [h2, h3, h1]
    simp only [List.append_assoc, List.nil_append]

/-- Claim C16, amended: the V1 and V2 canonical bytes are computed from the request alone,
and the tokens of `Sign`, `SignWithData`, `SignRequest` and `SignRequestV2` depend on the
secret key only through the HMAC-SHA1 digests taken under it: two credentials with the
same access key whose secret keys give the same digests return the same tokens. -/
theorem tokens_depend_on_digest (c1 c2 : Authorization)
    (hk : c1.AccessKey = c2.AccessKey)
    (hd : ∀ d, HMAC_SHA1 c1.SecretKey d = HMAC_SHA1 c2.SecretKey d) :
    (∀ d, c1.Sign d = c2.Sign d) ∧
      (∀ b, c1.SignWithData b = c2.SignWithData b) ∧
      (∀ req, c1.SignRequest req = c2.SignRequest req) ∧
      (∀ req, c1.SignRequestV2 req = c2.SignRequestV2 req) := by
  have hs : ∀ d, c1.Sign d = c2.Sign d := by
    intro d
    rw [Sign_eq, Sign_eq, hk, hd]
  refine ⟨hs, ?_, ?_, ?_⟩
  · intro b
    unfold Authorization.SignWithData
    rw [hs, hk]
  · intro req
    unfold Authorization.SignRequest
    cases SignRequest.data req with
    | error e => rfl
    | ok d => simp only [hs]
  · intro req
    unfold Authorization.SignRequestV2
    cases SignRequestV2.data req with
    | error e => rfl
    | ok d => simp only [hs]

/-- The secret keys `[]` and `[0]` give the same digests, so the two credentials return
the same tokens. -/
theorem tokens_depend_on_digest_witness :
    authEmptyKey.SecretKey ≠ authZeroKey.SecretKey ∧
      authEmptyKey.Sign (str "hello") = authZeroKey.Sign (str "hello") ∧
      authEmptyKey.SignWithData (str "hello") = authZeroKey.SignWithData (str "hello") ∧
      authEmptyKey.SignRequest reqFooForm = authZeroKey.SignRequest reqFooForm ∧
      authEmptyKey.SignRequestV2 reqFooForm = authZeroKey.SignRequestV2 reqFooForm := by
  have h := tokens_depend_on_digest authEmptyKey authZeroKey rfl
    (fun d => (HMAC_SHA1_of_keyBlock _ _ d keyBlock_zero_key).symm)
  exact ⟨by decide, h.1 _, h.2.1 _, h.2.2.1 _, h.2.2.2 _⟩

/-! ## The read position of the body -/

theorem NewStream_fst (s : RequestStream) :
    (seekable.NewStream s).1 = seekable.New s.req := by
  unfold seekable.NewStream seekable.ReadAll seekable.New
  rcases s.req.Body with _ | ⟨b | e⟩ <;> rfl

theorem NewStream_of_ok (s : RequestStream) (r : seekable.SeekableCloser)
    (h : seekable.New s.req = .ok r) : seekable.NewStream s = (.ok r, s) := by
  unfold seekable.New at h
  unfold seekable.NewStream seekable.ReadAll seekable.New
  rcases hb : s.req.Body with _ | ⟨b | e⟩
  · rw [hb] at h
    cases h
  · rw [hb] at h
    cases h
    rfl
  · rw [hb] at h
    cases h

theorem NewStream_of_error (s : RequestStream) (e : GoError)
    (h : seekable.New s.req = .error e) : (seekable.NewStream s).1 = .error e := by
  rw [NewStream_fst, h]

theorem SignRequestStream_fst (ath : Authorization) (s : RequestStream) :
    (ath.SignRequestStream s).1 = ath.SignRequest s.req := by
  unfold Authorization.SignRequestStream Authorization.SignRequest SignRequest.data
  by_cases hi : incBody s.req = true
  · cases hs : seekable.New s.req with
    | error e =>
      have h1 := NewStream_of_error s e hs
      rcases hn : seekable.NewStream s with ⟨r, s1⟩
      rw [hn] at h1
      simp only at h1
      subst h1
      simp [hi]
    | ok r =>
      rw [NewStream_of_ok s r hs]
      simp [hi]
  · simp [hi]

theorem SignRequestV2Stream_fst (ath : Authorization) (s : RequestStream) :
    (ath.SignRequestV2Stream s).1 = ath.SignRequestV2 s.req := by
  unfold Authorization.SignRequestV2Stream Authorization.SignRequestV2 SignRequestV2.data
  by_cases hi : incBodyV2 s.req = true
  · cases hs : seekable.New s.req with
    | error e =>
      have h1 := NewStream_of_error s e hs
      rcases hn : seekable.NewStream s with ⟨r, s1⟩
      rw [hn] at h1
      simp only at h1
      subst h1
      simp [hi]
    | ok r =>
      rw [NewStream_of_ok s r hs]
      simp [hi]
  · simp [hi]

theorem SignRequestStream_snd (ath : Authorization) (s : RequestStream)
    (h : (ath.SignRequest s.req).2 = none) : (ath.SignRequestStream s).2 = s := by
  unfold Authorization.SignRequest SignRequest.data at h
  unfold Authorization.SignRequestStream
  by_cases hi : incBody s.req = true
  · cases hs : seekable.New s.req with
    | error e => simp [hi, hs] at h
    | ok r =>
      rw [NewStream_of_ok s r hs]
      simp [hi]
  · simp [hi]

theorem SignRequestV2Stream_snd (ath : Authorization) (s : RequestStream)
    (h : (ath.SignRequestV2 s.req).2 = none) : (ath.SignRequestV2Stream s).2 = s := by
  unfold Authorization.SignRequestV2 SignRequestV2.data at h
  unfold Authorization.SignRequestV2Stream
  by_cases hi : incBodyV2 s.req = true
  · cases hs : seekable.New s.req with
    | error e => simp [hi, hs] at h
    | ok r =>
      rw [NewStream_of_ok s r hs]
      simp [hi]
  · simp [hi]

theorem VerifyCallbackStream_fst (ath : Authorization) (s : RequestStream) :
    (ath.VerifyCallbackStream s).1 = ath.VerifyCallback s.req := by
  unfold Authorization.VerifyCallbackStream Authorization.VerifyCallback
  by_cases ha : s.req.Header.Get (str "Authorization") = []
  · simp [ha]
  · have hf := SignRequestStream_fst ath s
    rcases hn : ath.SignRequestStream s with ⟨⟨t, e⟩, s1⟩
    rw [hn] at hf
    simp only at hf
    rw [← hf]
    cases e <;> simp [ha]

theorem VerifyCallbackStream_snd (ath : Authorization) (s : RequestStream)
    (h : (ath.VerifyCallback s.req).2 = none) : (ath.VerifyCallbackStream s).2 = s := by
  unfold Authorization.VerifyCallbackStream
  by_cases ha : s.req.Header.Get (str "Authorization") = []
  · simp [ha]
  · rw [VerifyCallback_of_auth ath s.req ha] at h
    have hf := SignRequestStream_fst ath s
    rcases hn : ath.SignRequestStream s with ⟨⟨t, e⟩, s1⟩
    rw [hn] at hf
    simp only at hf
    rw [← hf] at h
    cases e with
    | some e => simp at h
    | none =>
      have hs := SignRequestStream_snd ath s (by rw [← hf])
      rw [hn] at hs
      simp only at hs
      simp [ha, hs]

/-- Claim C15 as stated fails: on the form-encoded request whose stream holds `bar` and
whose read fails at the end of these bytes, `SignRequest`, `SignRequestV2` and
`VerifyCallback` return the error of the body, and a later reader obtains nothing: nothing
restores the three bytes the failed read consumed. -/
theorem body_consumed_after_error :
    streamBroken.rest = str "bar" ∧
      (exampleAuth.SignRequestStream streamBroken).1 = ([], some errEOF) ∧
      (exampleAuth.SignRequestStream streamBroken).2.rest = [] ∧
      (exampleAuth.SignRequestV2Stream streamBroken).1 = ([], some errEOF) ∧
      (exampleAuth.SignRequestV2Stream streamBroken).2.rest = [] ∧
      (exampleAuth.VerifyCallbackStream streamBroken).1 = (false, some errEOF) ∧
      (exampleAuth.VerifyCallbackStream streamBroken).2.rest = [] ∧
      ([] : Bytes) ≠ str "bar" := by
  decide

/-- Claim C15, amended: after `SignRequest`, `SignRequestV2` or `VerifyCallback` returns
without an error, that is with a token or with true or false, the bytes a later reader
still obtains from the request body are the same as before the call; the results are
those of the functions without stream. -/
theorem body_unchanged_without_error (ath : Authorization) (s : RequestStream) :
    ((ath.SignRequestStream s).1 = ath.SignRequest s.req ∧
        ((ath.SignRequest s.req).2 = none → (ath.SignRequestStream s).2.rest = s.rest)) ∧
      ((ath.SignRequestV2Stream s).1 = ath.SignRequestV2 s.req ∧
        ((ath.SignRequestV2 s.req).2 = none →
          (ath.SignRequestV2Stream s).2.rest = s.rest)) ∧
      ((ath.VerifyCallbackStream s).1 = ath.VerifyCallback s.req ∧
        ((ath.VerifyCallback s.req).2 = none →
          (ath.VerifyCallbackStream s).2.rest = s.rest)) := by
  refine ⟨⟨SignRequestStream_fst ath s, ?_⟩, ⟨SignRequestV2Stream_fst ath s, ?_⟩,
    ⟨VerifyCallbackStream_fst ath s, ?_⟩⟩
  · intro h
    rw [SignRequestStream_snd ath s h]
  · intro h
    rw [SignRequestV2Stream_snd ath s h]
  · intro h
    rw [VerifyCallbackStream_snd ath s h]

/-- The form-encoded request with body `bar` is signed with its body, and a later reader
still obtains `bar`. -/
theorem body_unchanged_without_error_witness :
    incBody streamFooForm.req = true ∧ incBodyV2 streamFooForm.req = true ∧
      (exampleAuth.SignRequest streamFooForm.req).2 = none ∧
      (exampleAuth.SignRequestStream streamFooForm).2.rest = str "bar" ∧
      (exampleAuth.SignRequestV2Stream streamFooForm).2.rest = str "bar" ∧
      (exampleAuth.VerifyCallbackStream streamFooForm).2.rest = str "bar" := by
  have h := body_unchanged_without_error exampleAuth streamFooForm
  exact ⟨by decide, by decide, by decide, h.1.2 (by decide), h.2.1.2 (by decide),
    h.2.2.2 (by decide)⟩

end auth
